import Mathlib

/-!
Shallow embedding of the shimcache/amcache timeline reconstruction algorithm of
`src/analyse/shimcache.rs` (function `ShimcacheAnalyzer::amcache_shimcache_timeline`
and its nested helper `set_timestamp_ranges`), together with proofs about the
properties of the algorithm.

Modelling choices:
* timestamps (`chrono::DateTime<Utc>`) are integers counting milliseconds, so that
  the Pass-C comparison `difference.num_milliseconds().abs() > MAX_TIME_DIFFERENCE`
  is exact integer arithmetic;
* compiled regexes are abstract matchers `String → Bool` (regex compilation is an
  external crate and out of scope);
* Rust `String::to_lowercase` is modelled by mapping `Char.toLower` over the string;
* code that can panic (`expect`, `panic!`, out-of-bounds indexing) is modelled by
  returning `Option`, with `none` for the panic;
* hive parsing and all terminal printing are out of scope; the analysis function is
  therefore parameterised directly by the parsed artifacts.
-/

set_option maxHeartbeats 1000000

namespace Chainsaw

/-- Millisecond-precision timestamps, modelling `chrono::DateTime<Utc>`. -/
abbrev Timestamp := Int

/-- Rust enum `TimestampType` (provenance of an exact timestamp). -/
inductive TimestampType where
  | AmcacheRangeMatch
  | NearTSMatch
  | PatternMatch
  | ShimcacheLastUpdate
deriving DecidableEq

/-- Rust enum `TimelineTimestamp`.  The `Range` variant has fields `from` and `to`
in the source; `from` is a reserved word in Lean so the fields are `fromTs`/`toTs`. -/
inductive TimelineTimestamp where
  | Exact (ts : Timestamp) (ty : TimestampType)
  | Range (fromTs toTs : Timestamp)
  | RangeEnd (ts : Timestamp)
  | RangeStart (ts : Timestamp)
deriving DecidableEq

/-- Rust enum `EntryType` from `file::hve::shimcache` (only the fields the analysis
consults are modelled: the path of a `File` entry and the name of a `Program` entry). -/
inductive EntryType where
  | File (path : String)
  | Program (program_name : String)
deriving DecidableEq

/-- Rust struct `ShimcacheEntry` (only the fields the analysis consults). -/
structure ShimcacheEntry where
  entry_type : EntryType
  last_modified_ts : Option Timestamp
deriving DecidableEq

/-- Rust struct `FileEntry` of the Amcache artifact (fields consulted by the analysis). -/
structure FileEntry where
  path : String
  key_last_modified_ts : Timestamp
deriving DecidableEq

/-- Rust struct `ProgramEntry` of the Amcache artifact (fields consulted by the analysis). -/
structure ProgramEntry where
  program_name : String
  key_last_modified_ts : Timestamp
deriving DecidableEq

/-- Rust struct `TimelineEntity`. -/
structure TimelineEntity where
  amcache_file : Option FileEntry
  amcache_program : Option ProgramEntry
  shimcache_entry : Option ShimcacheEntry
  timestamp : Option TimelineTimestamp
deriving DecidableEq

/-- Rust struct `ShimcacheArtifact` (the `version` field is only printed, not used). -/
structure ShimcacheArtifact where
  last_update_ts : Timestamp
  entries : List ShimcacheEntry
deriving DecidableEq

/-- Rust struct `AmcacheArtifact`. -/
structure AmcacheArtifact where
  file_entries : List FileEntry
  program_entries : List ProgramEntry
deriving DecidableEq

/-- `TimelineEntity::with_shimcache_entry`. -/
def TimelineEntity.with_shimcache_entry (shimcache_entry : ShimcacheEntry) : TimelineEntity :=
  { amcache_file := none
    amcache_program := none
    shimcache_entry := some shimcache_entry
    timestamp := none }

/-- Rust `String::to_lowercase`, modelled characterwise with `Char.toLower`. -/
def to_lowercase (s : String) : String := ⟨s.data.map Char.toLower⟩

/-- Nested fn `extract_ts_from_entity`.  The Rust function panics when the entity's
timestamp is not `Exact`; the panic is modelled by `none`. -/
def extract_ts_from_entity (entity : TimelineEntity) : Option Timestamp :=
  match entity.timestamp with
  | some (.Exact timestamp _ty) => some timestamp
  | _ => none

/-- Nested fn `get_exact_ts_indices`: the indices (in ascending order) of the
entities whose timestamp is `Some(Exact(..))`.  The Rust loop pushes each index `i`
with an exact timestamp while enumerating the vector; this equals filtering the
index range by that test. -/
def get_exact_ts_indices (timeline_entities : List TimelineEntity) : List Nat :=
  (List.range timeline_entities.length).filter fun i =>
    match (timeline_entities[i]?).bind TimelineEntity.timestamp with
    | some (.Exact _ _) => true
    | _ => false

/-- The Rust loop `for i in lo..hi { timeline_entities[i].timestamp = Some(ts.clone()); }`:
overwrite the `timestamp` field of every entity whose index lies in `[lo, hi)`. -/
def set_range (lo hi : Nat) (ts : TimelineTimestamp) : List TimelineEntity → List TimelineEntity
  | [] => []
  | e :: rest =>
      (if lo = 0 ∧ 0 < hi then { e with timestamp := some ts } else e)
        :: set_range (lo - 1) (hi - 1) ts rest

/-- The Rust loop `for pair in range_indices.windows(2) { ... }` inside
`set_timestamp_ranges`: for each adjacent index pair `(start_i, end_i)` write
`Range { from: ts(end_i), to: ts(start_i) }` into the entities strictly between them.
Panics of `extract_ts_from_entity` and of vector indexing are modelled by `none`. -/
def fill_pairs : List Nat → List TimelineEntity → Option (List TimelineEntity)
  | start_i :: end_i :: rest, timeline_entities =>
    (timeline_entities[start_i]?).bind fun start_entity =>
      (timeline_entities[end_i]?).bind fun end_entity =>
        (extract_ts_from_entity end_entity).bind fun from_ts =>
          (extract_ts_from_entity start_entity).bind fun to_ts =>
            fill_pairs (end_i :: rest)
              (set_range (start_i + 1) end_i (TimelineTimestamp.Range from_ts to_ts)
                timeline_entities)
  | _, timeline_entities => some timeline_entities

/-- Lines 101–109 of `shimcache.rs`: when the first anchor index is positive, write
`RangeStart(ts(first_index))` into every entity before it.  The panics of indexing
and of `extract_ts_from_entity` are modelled by `none`. -/
def set_timestamp_ranges_first (first_index : Nat) (timeline_entities : List TimelineEntity) :
    Option (List TimelineEntity) :=
  if 0 < first_index then
    (timeline_entities[first_index]?).bind fun entity =>
      (extract_ts_from_entity entity).map fun t =>
        set_range 0 first_index (TimelineTimestamp.RangeStart t) timeline_entities
  else some timeline_entities

/-- Lines 124–132 of `shimcache.rs`: when entities remain after the last anchor index,
write `RangeEnd(ts(last_index))` into every entity after it. -/
def set_timestamp_ranges_last (last_index : Nat) (timeline_entities : List TimelineEntity) :
    Option (List TimelineEntity) :=
  if last_index + 1 < timeline_entities.length then
    (timeline_entities[last_index]?).bind fun entity =>
      (extract_ts_from_entity entity).map fun t =>
        set_range (last_index + 1) timeline_entities.length (TimelineTimestamp.RangeEnd t)
          timeline_entities
  else some timeline_entities

/-- Nested fn `set_timestamp_ranges` (lines 100–133 of `shimcache.rs`): given the
anchor indices, fill `RangeStart` before the first anchor, `Range` between adjacent
anchors and `RangeEnd` after the last anchor.  The `expect` calls on an empty index
list and the panics of `extract_ts_from_entity` are modelled by `none`. -/
def set_timestamp_ranges (range_indices : List Nat) (timeline_entities : List TimelineEntity) :
    Option (List TimelineEntity) :=
  (range_indices.head?).bind fun first_index =>
    (set_timestamp_ranges_first first_index timeline_entities).bind fun es1 =>
      (fill_pairs range_indices es1).bind fun es2 =>
        (range_indices.getLast?).bind fun last_index =>
          set_timestamp_ranges_last last_index es2

/-- The warning diagnostics emitted by `set_timestamp_ranges`: the body of the Rust
function (lines 100–133 of `shimcache.rs`) contains no logging, warning or diagnostic
call of any kind, so the emitted list is empty for every input. -/
def set_timestamp_ranges_warnings (_range_indices : List Nat)
    (_timeline_entities : List TimelineEntity) : List String := []

/-- The pattern test of Pass A (lines 154–157 of `shimcache.rs`): a `File` entry is
matched against its lowercased path, a `Program` entry against its program name. -/
def pattern_matches_entry (re : String → Bool) (entry_type : EntryType) : Bool :=
  match entry_type with
  | .File path => re (to_lowercase path)
  | .Program program_name => re program_name

/-- The body of Pass A once the entity's shimcache record is at hand: try the matchers
in declaration order (`List.find?` stops at the first success, like the Rust `break`);
on success, if `last_modified_ts` is present assign `Exact(ts, PatternMatch)`. -/
def pattern_apply (regexes : List (String → Bool)) (shimcache_entry : ShimcacheEntry)
    (entity : TimelineEntity) : TimelineEntity :=
  match regexes.find? (fun re => pattern_matches_entry re shimcache_entry.entry_type) with
  | none => entity
  | some _ =>
    match shimcache_entry.last_modified_ts with
    | some ts => { entity with timestamp := some (.Exact ts .PatternMatch) }
    | none => entity

/-- One entity's step of Pass A (lines 149–166 of `shimcache.rs`): entities without a
shimcache record are skipped (the `continue`), all others go through `pattern_apply`. -/
def pattern_match_entity (regexes : List (String → Bool)) (entity : TimelineEntity) :
    TimelineEntity :=
  match entity.shimcache_entry with
  | none => entity
  | some shimcache_entry => pattern_apply regexes shimcache_entry entity

/-- The match test of the Pass-B file join (lines 181–185 of `shimcache.rs`): the
entity holds a shimcache `File` record whose path equals the Amcache entry's path
after lowercasing both. -/
def file_entry_matches (file_entry : FileEntry) (entity : TimelineEntity) : Bool :=
  match entity.shimcache_entry with
  | some shimcache_entry =>
    match shimcache_entry.entry_type with
    | .File path => to_lowercase file_entry.path = to_lowercase path
    | _ => false
  | none => false

/-- The inner loop of the Pass-B file join (lines 179–193 of `shimcache.rs`): attach
`file_entry` to the first entity whose shimcache record is a `File` with a
case-insensitively equal path, then stop (the `break`). -/
def attach_file_entry (file_entry : FileEntry) : List TimelineEntity → List TimelineEntity
  | [] => []
  | entity :: rest =>
    if file_entry_matches file_entry entity then
      { entity with amcache_file := some file_entry } :: rest
    else entity :: attach_file_entry file_entry rest

/-- The match test of the Pass-B program join (lines 198–202 of `shimcache.rs`): the
entity holds a shimcache `Program` record with exactly the Amcache entry's name. -/
def program_entry_matches (program_entry : ProgramEntry) (entity : TimelineEntity) : Bool :=
  match entity.shimcache_entry with
  | some shimcache_entry =>
    match shimcache_entry.entry_type with
    | .Program program_name => program_entry.program_name = program_name
    | _ => false
  | none => false

/-- The inner loop of the Pass-B program join (lines 196–210 of `shimcache.rs`):
attach `program_entry` to the first entity whose shimcache record is a `Program`
with exactly equal program name, then stop (the `break`). -/
def attach_program_entry (program_entry : ProgramEntry) :
    List TimelineEntity → List TimelineEntity
  | [] => []
  | entity :: rest =>
    if program_entry_matches program_entry entity then
      { entity with amcache_program := some program_entry } :: rest
    else entity :: attach_program_entry program_entry rest

/-- `const MAX_TIME_DIFFERENCE: i64 = 1*60*1000; // 1 min` (in milliseconds). -/
def MAX_TIME_DIFFERENCE : Int := 1 * 60 * 1000

/-- One entity's step of Pass C (lines 215–227 of `shimcache.rs`): if the entity has a
shimcache record with a present `last_modified_ts` and an attached Amcache file entry
whose `key_last_modified_ts` differs by at most `MAX_TIME_DIFFERENCE` milliseconds,
assign `Exact(amcache ts, NearTSMatch)`; otherwise leave the entity unchanged. -/
def near_ts_apply (shimcache_entry : ShimcacheEntry) (amcache_entry : FileEntry)
    (entity : TimelineEntity) : TimelineEntity :=
  match shimcache_entry.last_modified_ts with
  | some shimcache_ts =>
      if MAX_TIME_DIFFERENCE < |shimcache_ts - amcache_entry.key_last_modified_ts| then
        entity
      else
        { entity with
            timestamp := some (.Exact amcache_entry.key_last_modified_ts .NearTSMatch) }
  | none => entity

/-- One entity's step of Pass C: entities lacking a shimcache record or an attached
Amcache file entry are skipped, all others go through `near_ts_apply`. -/
def near_ts_step (entity : TimelineEntity) : TimelineEntity :=
  match entity.shimcache_entry, entity.amcache_file with
  | some shimcache_entry, some amcache_entry => near_ts_apply shimcache_entry amcache_entry entity
  | _, _ => entity

/-- One entity's step of Pass D (lines 240–256 of `shimcache.rs`): if the entity holds
a shimcache `File` record, an attached Amcache file entry and a `Range(from, to)`
timestamp with `from < amcache_ts < to`, assign `Exact(amcache_ts, AmcacheRangeMatch)`;
otherwise leave the entity unchanged. -/
def range_match_apply (shimcache_entry : ShimcacheEntry) (amcache_file_entry : FileEntry)
    (entity : TimelineEntity) : TimelineEntity :=
  match shimcache_entry.entry_type with
  | .File _ =>
    match entity.timestamp with
    | some (.Range fromTs toTs) =>
        if fromTs < amcache_file_entry.key_last_modified_ts ∧
            amcache_file_entry.key_last_modified_ts < toTs then
          { entity with
              timestamp :=
                some (.Exact amcache_file_entry.key_last_modified_ts .AmcacheRangeMatch) }
        else entity
    | _ => entity
  | _ => entity

/-- One entity's step of Pass D: entities lacking a shimcache record or an attached
Amcache file entry are skipped, all others go through `range_match_apply`. -/
def range_match_step (entity : TimelineEntity) : TimelineEntity :=
  match entity.shimcache_entry with
  | none => entity
  | some shimcache_entry =>
    match entity.amcache_file with
    | none => entity
    | some amcache_file_entry => range_match_apply shimcache_entry amcache_file_entry entity

/-- The synthetic head entity prepended at index 0 (lines 140–145 of `shimcache.rs`):
no shimcache record, no enrichments, timestamp
`Exact(shimcache.last_update_ts, ShimcacheLastUpdate)`. -/
def shimcache_head_entity (shimcache : ShimcacheArtifact) : TimelineEntity :=
  { amcache_file := none
    amcache_program := none
    shimcache_entry := none
    timestamp := some (.Exact shimcache.last_update_ts .ShimcacheLastUpdate) }

/-- Lines 136–145 of `shimcache.rs`: build one timeline entity per shimcache entry and
prepend the synthetic head entity. -/
def initial_entities (shimcache : ShimcacheArtifact) : List TimelineEntity :=
  shimcache_head_entity shimcache
    :: shimcache.entries.map TimelineEntity.with_shimcache_entry

/-- Pass A applied to every entity (lines 147–166 of `shimcache.rs`). -/
def pattern_pass (regexes : List (String → Bool)) (shimcache : ShimcacheArtifact) :
    List TimelineEntity :=
  (initial_entities shimcache).map (pattern_match_entity regexes)

/-- The calls `set_timestamp_ranges(&get_exact_ts_indices(&timeline_entities), ...)`
(lines 174, 236 and 260 of `shimcache.rs`). -/
def fill_step (timeline_entities : List TimelineEntity) : Option (List TimelineEntity) :=
  set_timestamp_ranges (get_exact_ts_indices timeline_entities) timeline_entities

/-- State after the first Range-Filler run (line 174 of `shimcache.rs`). -/
def first_fill (regexes : List (String → Bool)) (shimcache : ShimcacheArtifact) :
    Option (List TimelineEntity) :=
  fill_step (pattern_pass regexes shimcache)

/-- State after Pass B (lines 177–210 of `shimcache.rs`): fold the Amcache file
entries and then the program entries over the entity vector, attaching each to its
first match. -/
def attach_pass (regexes : List (String → Bool)) (shimcache : ShimcacheArtifact)
    (amcache : AmcacheArtifact) : Option (List TimelineEntity) :=
  (first_fill regexes shimcache).map fun es =>
    amcache.program_entries.foldl (fun es2 pe => attach_program_entry pe es2)
      (amcache.file_entries.foldl (fun es2 fe => attach_file_entry fe es2) es)

/-- State after Pass C (lines 212–227 of `shimcache.rs`). -/
def near_pass (regexes : List (String → Bool)) (shimcache : ShimcacheArtifact)
    (amcache : AmcacheArtifact) : Option (List TimelineEntity) :=
  (attach_pass regexes shimcache amcache).map (List.map near_ts_step)

/-- State after the second Range-Filler run (line 236 of `shimcache.rs`). -/
def second_fill (regexes : List (String → Bool)) (shimcache : ShimcacheArtifact)
    (amcache : AmcacheArtifact) : Option (List TimelineEntity) :=
  (near_pass regexes shimcache amcache).bind fill_step

/-- State after Pass D (lines 238–256 of `shimcache.rs`). -/
def range_match_pass (regexes : List (String → Bool)) (shimcache : ShimcacheArtifact)
    (amcache : AmcacheArtifact) : Option (List TimelineEntity) :=
  (second_fill regexes shimcache amcache).map (List.map range_match_step)

/-- State after the third Range-Filler run (line 260 of `shimcache.rs`). -/
def third_fill (regexes : List (String → Bool)) (shimcache : ShimcacheArtifact)
    (amcache : AmcacheArtifact) : Option (List TimelineEntity) :=
  (range_match_pass regexes shimcache amcache).bind fill_step

/-- `ShimcacheAnalyzer::amcache_shimcache_timeline`, parameterised by the parsed
artifacts.  Without an Amcache artifact the analysis stops after the first
Range-Filler run; with one it performs Passes B, C, D and two more filler runs. -/
def amcache_shimcache_timeline (regexes : List (String → Bool))
    (shimcache : ShimcacheArtifact) (amcache : Option AmcacheArtifact) :
    Option (List TimelineEntity) :=
  match amcache with
  | none => first_fill regexes shimcache
  | some am => third_fill regexes shimcache am

/-- The successive states of the entity vector along the pipeline, indexed 0–7:
initial, after Pass A, after fill 1, after Pass B, after Pass C, after fill 2,
after Pass D, after fill 3.  Stages 3–7 require an Amcache artifact. -/
def pipeline_stage (regexes : List (String → Bool)) (shimcache : ShimcacheArtifact)
    (amcache : Option AmcacheArtifact) : Nat → Option (List TimelineEntity)
  | 0 => some (initial_entities shimcache)
  | 1 => some (pattern_pass regexes shimcache)
  | 2 => first_fill regexes shimcache
  | 3 => amcache.bind fun am => attach_pass regexes shimcache am
  | 4 => amcache.bind fun am => near_pass regexes shimcache am
  | 5 => amcache.bind fun am => second_fill regexes shimcache am
  | 6 => amcache.bind fun am => range_match_pass regexes shimcache am
  | 7 => amcache.bind fun am => third_fill regexes shimcache am
  | _ + 8 => none

/-- Spec-side helper: the exact timestamp stored at index `i` (0 when absent). -/
def ts_at (timeline_entities : List TimelineEntity) (i : Nat) : Timestamp :=
  match timeline_entities[i]? with
  | some e =>
    match e.timestamp with
    | some (.Exact t _) => t
    | _ => 0
  | none => 0

/-- Spec-side helper: index `i` holds an entity with an `Exact` timestamp. -/
def is_anchor (timeline_entities : List TimelineEntity) (i : Nat) : Prop :=
  ∃ e t ty, timeline_entities[i]? = some e ∧
    e.timestamp = some (TimelineTimestamp.Exact t ty)

/-- Spec-side helper: overwrite the timestamp of one entity. -/
def upd_ts (ts : TimelineTimestamp) (e : TimelineEntity) : TimelineEntity :=
  { e with timestamp := some ts }

/-- Spec-side helper: the adjacent pair `(a, b)` of the index list that strictly
encloses `i`, if any. -/
def pair_gap : List Nat → Nat → Option (Nat × Nat)
  | a :: b :: rest, i => if a < i ∧ i < b then some (a, b) else pair_gap (b :: rest) i
  | _, _ => none

/-- Spec-side helper: a timestamp variant that is not `Exact`. -/
def is_range_kind : TimelineTimestamp → Prop
  | .Exact _ _ => False
  | _ => True

/-- Spec-side helper: provenance strength, `PatternMatch < NearTSMatch <
AmcacheRangeMatch`, with the never-overwritten `ShimcacheLastUpdate` above all. -/
def prov_rank : TimestampType → Nat
  | .PatternMatch => 0
  | .NearTSMatch => 1
  | .AmcacheRangeMatch => 2
  | .ShimcacheLastUpdate => 3

/-- Spec-side helper: one pipeline step never demotes an `Exact` timestamp — the
entity stays `Exact`, provenance never weakens, and a `ShimcacheLastUpdate` anchor
is left exactly as it was. -/
def exact_preserved (es es2 : List TimelineEntity) : Prop :=
  ∀ (i : Nat) (t : Timestamp) (ty : TimestampType),
    (es[i]?).bind TimelineEntity.timestamp = some (.Exact t ty) →
    ∃ t2 ty2, (es2[i]?).bind TimelineEntity.timestamp = some (.Exact t2 ty2) ∧
      prov_rank ty ≤ prov_rank ty2 ∧
      (ty = .ShimcacheLastUpdate → t2 = t ∧ ty2 = .ShimcacheLastUpdate)

/-- Spec-side invariant: no entity carries an Amcache file payload yet (true of every
state before Pass B runs). -/
def no_amcache_file (es : List TimelineEntity) : Prop :=
  ∀ (i : Nat) e, es[i]? = some e → e.amcache_file = none

/-- Spec-side invariant: an attached Amcache file payload only ever sits on an entity
holding a shimcache `File` record (established by Pass B and kept by later passes). -/
def amcache_file_requires_file_record (es : List TimelineEntity) : Prop :=
  ∀ (i : Nat) e, es[i]? = some e → e.amcache_file ≠ none →
    ∃ sce path, e.shimcache_entry = some sce ∧ sce.entry_type = EntryType.File path

/-- Spec-side invariant on every state from Pass A up to the input of Pass C: any
`Exact` timestamp is either the head's `ShimcacheLastUpdate` (on an entity with no
shimcache record) or a `PatternMatch`. -/
def exact_prop (es : List TimelineEntity) : Prop :=
  ∀ (i : Nat) e, es[i]? = some e → ∀ t ty, e.timestamp = some (.Exact t ty) →
    (ty = .ShimcacheLastUpdate ∧ e.shimcache_entry = none) ∨ ty = .PatternMatch

/-! ### Basic lemmas about `set_range`, anchors and `get_exact_ts_indices` -/

lemma set_range_length (ts : TimelineTimestamp) :
    ∀ (es : List TimelineEntity) (lo hi : Nat), (set_range lo hi ts es).length = es.length
  | [], _, _ => rfl
  | _ :: rest, lo, hi => by
      simp [set_range, set_range_length ts rest (lo - 1) (hi - 1)]

lemma set_range_getElem? (ts : TimelineTimestamp) :
    ∀ (es : List TimelineEntity) (lo hi i : Nat),
      (set_range lo hi ts es)[i]? =
        if lo ≤ i ∧ i < hi then (es[i]?).map (upd_ts ts) else es[i]?
  | [], lo, hi, i => by
      simp [set_range]
  | e :: rest, lo, hi, 0 => by
      simp only [set_range, List.getElem?_cons_zero, Option.map_some']
      by_cases h : lo = 0 ∧ 0 < hi
      · rw [if_pos h, if_pos ⟨Nat.le_of_eq h.1, h.2⟩]
        rfl
      · rw [if_neg h, if_neg (fun hc => h ⟨Nat.le_zero.mp hc.1, hc.2⟩)]
  | e :: rest, lo, hi, i + 1 => by
      simp only [set_range, List.getElem?_cons_succ]
      rw [set_range_getElem? ts rest (lo - 1) (hi - 1) i]
      split_ifs with h1 h2 h2 <;> first | rfl | omega

lemma set_range_getElem?_outside (ts : TimelineTimestamp) (es : List TimelineEntity)
    (lo hi i : Nat) (h : ¬ (lo ≤ i ∧ i < hi)) : (set_range lo hi ts es)[i]? = es[i]? := by
  rw [set_range_getElem?, if_neg h]

lemma is_anchor_extract {es : List TimelineEntity} {i : Nat} (h : is_anchor es i) :
    ∃ e, es[i]? = some e ∧ extract_ts_from_entity e = some (ts_at es i) := by
  obtain ⟨e, t, ty, he, ht⟩ := h
  exact ⟨e, he, by simp [extract_ts_from_entity, ht, ts_at, he]⟩

lemma is_anchor_lt_length {es : List TimelineEntity} {i : Nat} (h : is_anchor es i) :
    i < es.length := by
  obtain ⟨e, _, _, he, _⟩ := h
  exact (List.getElem?_eq_some.mp he).1

lemma ts_at_congr {es es2 : List TimelineEntity} {i : Nat} (h : es2[i]? = es[i]?) :
    ts_at es2 i = ts_at es i := by
  simp [ts_at, h]

lemma is_anchor_congr {es es2 : List TimelineEntity} {i : Nat} (h : es2[i]? = es[i]?) :
    is_anchor es i → is_anchor es2 i := by
  rintro ⟨e, t, ty, he, ht⟩
  exact ⟨e, t, ty, h ▸ he, ht⟩

lemma is_anchor_of_bind {es : List TimelineEntity} {i : Nat} {t : Timestamp}
    {ty : TimestampType} (h : (es[i]?).bind TimelineEntity.timestamp = some (.Exact t ty)) :
    is_anchor es i := by
  rcases he : es[i]? with _ | e
  · rw [he] at h; cases h
  · rw [he] at h
    exact ⟨e, t, ty, he, by simpa using h⟩

lemma mem_get_exact_ts_indices {es : List TimelineEntity} {i : Nat} :
    i ∈ get_exact_ts_indices es ↔ is_anchor es i := by
  unfold get_exact_ts_indices
  rw [List.mem_filter, List.mem_range]
  constructor
  · rintro ⟨hlt, hb⟩
    rcases hE : es[i]? with _ | e
    · rw [hE] at hb
      simp at hb
    · rw [hE] at hb
      simp only [Option.some_bind] at hb
      rcases hT : e.timestamp with _ | tt
      · rw [hT] at hb
        simp at hb
      · rw [hT] at hb
        rcases tt with ⟨t, ty⟩ | ⟨f, t⟩ | t | t
        · exact ⟨e, t, ty, hE, hT⟩
        · simp at hb
        · simp at hb
        · simp at hb
  · rintro ⟨e, t, ty, hE, hT⟩
    refine ⟨(List.getElem?_eq_some.mp hE).1, ?_⟩
    rw [hE]
    simp [hT]

lemma get_exact_ts_indices_sorted (es : List TimelineEntity) :
    (get_exact_ts_indices es).Pairwise (· < ·) :=
  List.Pairwise.filter _ (List.pairwise_lt_range _)

/-! ### Lemmas about sorted index lists and `pair_gap` -/

lemma sorted_head_le {l : List Nat} (hs : l.Pairwise (· < ·)) {a i : Nat}
    (hh : l.head? = some a) (hi : i ∈ l) : a ≤ i := by
  rcases l with _ | ⟨b, t⟩
  · cases hh
  · rw [List.head?_cons, Option.some_inj] at hh
    subst hh
    rcases List.mem_cons.mp hi with rfl | hit
    · exact Nat.le_refl i
    · exact Nat.le_of_lt ((List.pairwise_cons.mp hs).1 i hit)

lemma mem_of_getLast?_eq : ∀ {l : List Nat} {a : Nat}, l.getLast? = some a → a ∈ l
  | [], _, h => by cases h
  | [b], a, h => by
      rw [List.getLast?_singleton, Option.some_inj] at h
      simp [h]
  | b :: c :: t, a, h => by
      rw [List.getLast?_cons_cons] at h
      exact List.mem_cons_of_mem b (mem_of_getLast?_eq h)

lemma getLast?_isSome_of_ne_nil : ∀ {l : List Nat}, l ≠ [] → ∃ a, l.getLast? = some a
  | [], h => absurd rfl h
  | [b], _ => ⟨b, List.getLast?_singleton b⟩
  | b :: c :: t, _ => by
      rw [List.getLast?_cons_cons]
      exact getLast?_isSome_of_ne_nil (List.cons_ne_nil c t)

lemma sorted_le_getLast : ∀ {l : List Nat}, l.Pairwise (· < ·) → ∀ {a i : Nat},
    l.getLast? = some a → i ∈ l → i ≤ a
  | [], _, _, _, hl, _ => by cases hl
  | [b], _, a, i, hl, hi => by
      rw [List.getLast?_singleton, Option.some_inj] at hl
      rw [List.mem_singleton] at hi
      omega
  | b :: c :: t, hs, a, i, hl, hi => by
      rw [List.getLast?_cons_cons] at hl
      rcases List.mem_cons.mp hi with rfl | hit
      · have ha : a ∈ c :: t := mem_of_getLast?_eq hl
        exact Nat.le_of_lt ((List.pairwise_cons.mp hs).1 a ha)
      · exact sorted_le_getLast (List.pairwise_cons.mp hs).2 hl hit

lemma pair_gap_mem : ∀ {l : List Nat} {i a b : Nat}, pair_gap l i = some (a, b) →
    a ∈ l ∧ b ∈ l ∧ a < i ∧ i < b
  | [], _, _, _, h => by cases h
  | [_], _, _, _, h => by cases h
  | c :: d :: t, i, a, b, h => by
      rw [pair_gap] at h
      split_ifs at h with hc
      · rw [Option.some_inj, Prod.mk.injEq] at h
        obtain ⟨rfl, rfl⟩ := h
        exact ⟨List.mem_cons_self _ _, List.mem_cons_of_mem _ (List.mem_cons_self _ _),
          hc.1, hc.2⟩
      · obtain ⟨ha, hb, hlt1, hlt2⟩ := pair_gap_mem h
        exact ⟨List.mem_cons_of_mem _ ha, List.mem_cons_of_mem _ hb, hlt1, hlt2⟩

lemma pair_gap_none_of_forall : ∀ {l : List Nat} {i : Nat},
    (∀ c ∈ l, ¬ c < i) → pair_gap l i = none
  | [], _, _ => rfl
  | [_], _, _ => rfl
  | c :: d :: t, i, h => by
      rw [pair_gap, if_neg fun hc => h c (List.mem_cons_self _ _) hc.1]
      exact pair_gap_none_of_forall fun x hx => h x (List.mem_cons_of_mem c hx)

lemma pair_gap_none_of_mem : ∀ {l : List Nat}, l.Pairwise (· < ·) → ∀ {i : Nat},
    i ∈ l → pair_gap l i = none
  | [], _, _, hi => absurd hi (List.not_mem_nil _)
  | [_], _, _, _ => rfl
  | c :: d :: t, hs, i, hi => by
      rcases List.mem_cons.mp hi with rfl | hit
      · rw [pair_gap, if_neg fun hc => Nat.lt_irrefl i hc.1]
        exact pair_gap_none_of_forall fun x hx hxi =>
          Nat.lt_irrefl i (Nat.lt_trans ((List.pairwise_cons.mp hs).1 x hx) hxi)
      · have hdle : d ≤ i := sorted_head_le (List.pairwise_cons.mp hs).2 rfl hit
        rw [pair_gap, if_neg fun hc => Nat.lt_irrefl i (Nat.lt_of_lt_of_le hc.2 hdle)]
        exact pair_gap_none_of_mem (List.pairwise_cons.mp hs).2 hit

lemma pair_gap_classify : ∀ {l : List Nat}, l ≠ [] → l.Pairwise (· < ·) → ∀ {i : Nat},
    i ∈ l ∨ (∃ a, l.head? = some a ∧ i < a) ∨ (∃ a, l.getLast? = some a ∧ a < i) ∨
      ∃ p, pair_gap l i = some p
  | [], h, _, _ => absurd rfl h
  | [c], _, _, i => by
      rcases Nat.lt_trichotomy i c with h | rfl | h
      · exact Or.inr (Or.inl ⟨c, rfl, h⟩)
      · exact Or.inl (List.mem_singleton.mpr rfl)
      · exact Or.inr (Or.inr (Or.inl ⟨c, List.getLast?_singleton c, h⟩))
  | c :: d :: t, _, hs, i => by
      rcases Nat.lt_trichotomy i c with h | rfl | h
      · exact Or.inr (Or.inl ⟨c, rfl, h⟩)
      · exact Or.inl (List.mem_cons_self _ _)
      rcases Nat.lt_trichotomy i d with h2 | rfl | h2
      · refine Or.inr (Or.inr (Or.inr ⟨(c, d), ?_⟩))
        rw [pair_gap, if_pos ⟨h, h2⟩]
      · exact Or.inl (List.mem_cons_of_mem _ (List.mem_cons_self _ _))
      rcases pair_gap_classify (List.cons_ne_nil d t) (List.pairwise_cons.mp hs).2
          (i := i) with hm | ⟨a, ha, hia⟩ | ⟨a, ha, hai⟩ | ⟨p, hp⟩
      · exact Or.inl (List.mem_cons_of_mem _ hm)
      · rw [List.head?_cons, Option.some_inj] at ha
        omega
      · refine Or.inr (Or.inr (Or.inl ⟨a, ?_, hai⟩))
        rw [List.getLast?_cons_cons]
        exact ha
      · refine Or.inr (Or.inr (Or.inr ⟨p, ?_⟩))
        rw [pair_gap, if_neg fun hc => Nat.lt_irrefl i (Nat.lt_trans hc.2 h2)]
        exact hp

/-! ### The behaviour of the Range Filler -/

lemma fill_pairs_spec : ∀ (l : List Nat) (es : List TimelineEntity),
    l.Pairwise (· < ·) → (∀ i ∈ l, is_anchor es i) →
    ∃ es2, fill_pairs l es = some es2 ∧ es2.length = es.length ∧
      (∀ i : Nat, pair_gap l i = none → es2[i]? = es[i]?) ∧
      (∀ i a b : Nat, pair_gap l i = some (a, b) →
        es2[i]? = (es[i]?).map (upd_ts (.Range (ts_at es b) (ts_at es a))))
  | [], es, _, _ => ⟨es, rfl, rfl, fun _ _ => rfl, fun _ _ _ h => by cases h⟩
  | [a], es, _, _ => ⟨es, rfl, rfl, fun _ _ => rfl, fun _ _ _ h => by cases h⟩
  | a :: b :: rest, es, hs, hanch => by
    obtain ⟨ea, hea, hexa⟩ := is_anchor_extract (hanch a (List.mem_cons_self _ _))
    obtain ⟨eb, heb, hexb⟩ :=
      is_anchor_extract (hanch b (List.mem_cons_of_mem _ (List.mem_cons_self _ _)))
    have hs2 : (b :: rest).Pairwise (· < ·) := (List.pairwise_cons.mp hs).2
    have h_out : ∀ j : Nat, ¬ (a + 1 ≤ j ∧ j < b) →
        (set_range (a + 1) b (TimelineTimestamp.Range (ts_at es b) (ts_at es a)) es)[j]? =
          es[j]? :=
      fun j hj => set_range_getElem?_outside _ es _ _ j hj
    have hmem_eq : ∀ j ∈ b :: rest,
        (set_range (a + 1) b (TimelineTimestamp.Range (ts_at es b) (ts_at es a)) es)[j]? =
          es[j]? := by
      intro j hj
      have hbj : b ≤ j := sorted_head_le hs2 rfl hj
      exact h_out j fun hc => Nat.lt_irrefl j (Nat.lt_of_lt_of_le hc.2 hbj)
    have hanch1 : ∀ j ∈ b :: rest,
        is_anchor (set_range (a + 1) b (TimelineTimestamp.Range (ts_at es b) (ts_at es a)) es)
          j :=
      fun j hj => is_anchor_congr (hmem_eq j hj) (hanch j (List.mem_cons_of_mem _ hj))
    obtain ⟨es2, hfp, hlen, hnone, hsome⟩ :=
      fill_pairs_spec (b :: rest)
        (set_range (a + 1) b (TimelineTimestamp.Range (ts_at es b) (ts_at es a)) es) hs2 hanch1
    refine ⟨es2, ?_, ?_, ?_, ?_⟩
    · rw [fill_pairs, hea, Option.some_bind, heb, Option.some_bind, hexb, Option.some_bind,
        hexa, Option.some_bind]
      exact hfp
    · rw [hlen, set_range_length]
    · intro i h
      rw [pair_gap] at h
      split_ifs at h with hc
      rw [hnone i h]
      exact h_out i fun hc2 => hc ⟨hc2.1, hc2.2⟩
    · intro i c d h
      rw [pair_gap] at h
      split_ifs at h with hc
      · rw [Option.some_inj, Prod.mk.injEq] at h
        obtain ⟨rfl, rfl⟩ := h
        have hnone2 : pair_gap (b :: rest) i = none := by
          apply pair_gap_none_of_forall
          intro x hx hxi
          have hbx : b ≤ x := sorted_head_le hs2 rfl hx
          omega
        rw [hnone i hnone2, set_range_getElem?, if_pos ⟨hc.1, hc.2⟩]
      · obtain ⟨hcm, hdm, hci, hid⟩ := pair_gap_mem h
        have hbc : b ≤ c := sorted_head_le hs2 rfl hcm
        rw [hsome i c d h, ts_at_congr (hmem_eq c hcm), ts_at_congr (hmem_eq d hdm),
          h_out i (by omega)]

lemma set_timestamp_ranges_first_spec (first_index : Nat) (es : List TimelineEntity)
    (h : 0 < first_index → is_anchor es first_index) :
    ∃ es1, set_timestamp_ranges_first first_index es = some es1 ∧
      es1.length = es.length ∧
      (∀ i : Nat, first_index ≤ i → es1[i]? = es[i]?) ∧
      (∀ i : Nat, i < first_index →
        es1[i]? = (es[i]?).map (upd_ts (.RangeStart (ts_at es first_index)))) := by
  by_cases h0 : 0 < first_index
  · obtain ⟨e0, he0, hex0⟩ := is_anchor_extract (h h0)
    refine ⟨set_range 0 first_index (.RangeStart (ts_at es first_index)) es, ?_, ?_, ?_, ?_⟩
    · unfold set_timestamp_ranges_first
      rw [if_pos h0, he0, Option.some_bind, hex0, Option.map_some']
    · exact set_range_length _ es _ _
    · intro i hi
      exact set_range_getElem?_outside _ es _ _ i fun hc => Nat.lt_irrefl i
        (Nat.lt_of_lt_of_le hc.2 hi)
    · intro i hi
      rw [set_range_getElem?, if_pos ⟨Nat.zero_le i, hi⟩]
  · have h1 : first_index = 0 := by omega
    subst h1
    refine ⟨es, ?_, rfl, fun _ _ => rfl, fun i hi => absurd hi (Nat.not_lt_zero i)⟩
    unfold set_timestamp_ranges_first
    rw [if_neg h0]

lemma set_timestamp_ranges_last_spec (last_index : Nat) (es : List TimelineEntity)
    (h : last_index + 1 < es.length → is_anchor es last_index) :
    ∃ es3, set_timestamp_ranges_last last_index es = some es3 ∧
      es3.length = es.length ∧
      (∀ i : Nat, ¬ (last_index < i ∧ i < es.length) → es3[i]? = es[i]?) ∧
      (∀ i : Nat, last_index < i → i < es.length →
        es3[i]? = (es[i]?).map (upd_ts (.RangeEnd (ts_at es last_index)))) := by
  by_cases h0 : last_index + 1 < es.length
  · obtain ⟨e0, he0, hex0⟩ := is_anchor_extract (h h0)
    refine ⟨set_range (last_index + 1) es.length (.RangeEnd (ts_at es last_index)) es,
      ?_, ?_, ?_, ?_⟩
    · unfold set_timestamp_ranges_last
      rw [if_pos h0, he0, Option.some_bind, hex0, Option.map_some']
    · exact set_range_length _ es _ _
    · intro i hi
      exact set_range_getElem?_outside _ es _ _ i fun hc => hi ⟨hc.1, hc.2⟩
    · intro i h1 h2
      rw [set_range_getElem?, if_pos ⟨h1, h2⟩]
  · refine ⟨es, ?_, rfl, fun _ _ => rfl, fun i h1 h2 => absurd (by omega) h0⟩
    unfold set_timestamp_ranges_last
    rw [if_neg h0]

lemma set_timestamp_ranges_spec (l : List Nat) (es : List TimelineEntity)
    (hne : l ≠ []) (hs : l.Pairwise (· < ·)) (hanch : ∀ i ∈ l, is_anchor es i) :
    ∃ es2, set_timestamp_ranges l es = some es2 ∧ es2.length = es.length ∧
      (∀ i ∈ l, es2[i]? = es[i]?) ∧
      (∀ a0 : Nat, l.head? = some a0 → ∀ i : Nat, i < a0 →
        es2[i]? = (es[i]?).map (upd_ts (.RangeStart (ts_at es a0)))) ∧
      (∀ i a b : Nat, pair_gap l i = some (a, b) →
        es2[i]? = (es[i]?).map (upd_ts (.Range (ts_at es b) (ts_at es a)))) ∧
      (∀ al : Nat, l.getLast? = some al → ∀ i : Nat, al < i → i < es.length →
        es2[i]? = (es[i]?).map (upd_ts (.RangeEnd (ts_at es al)))) := by
  rcases l with _ | ⟨a0, l'⟩
  · exact absurd rfl hne
  have hh : (a0 :: l').head? = some a0 := rfl
  obtain ⟨es1, hfeq, hf_len, hf_keep, hf_write⟩ :=
    set_timestamp_ranges_first_spec a0 es fun _ => hanch a0 (List.mem_cons_self _ _)
  have hkeep_mem : ∀ j ∈ a0 :: l', es1[j]? = es[j]? := fun j hj =>
    hf_keep j (sorted_head_le hs hh hj)
  have hanch1 : ∀ j ∈ a0 :: l', is_anchor es1 j := fun j hj =>
    is_anchor_congr (hkeep_mem j hj) (hanch j hj)
  obtain ⟨es2, hfp, hp_len, hp_none, hp_some⟩ := fill_pairs_spec (a0 :: l') es1 hs hanch1
  obtain ⟨al, hal⟩ := getLast?_isSome_of_ne_nil hne
  have hal_mem : al ∈ a0 :: l' := mem_of_getLast?_eq hal
  have h_keep2 : ∀ j ∈ a0 :: l', es2[j]? = es[j]? := by
    intro j hj
    rw [hp_none j (pair_gap_none_of_mem hs hj)]
    exact hkeep_mem j hj
  have hanch2 : ∀ j ∈ a0 :: l', is_anchor es2 j := fun j hj =>
    is_anchor_congr (h_keep2 j hj) (hanch j hj)
  obtain ⟨es3, hleq, hl_len, hl_keep, hl_write⟩ :=
    set_timestamp_ranges_last_spec al es2 fun _ => hanch2 al hal_mem
  have hlen_2 : es2.length = es.length := hp_len.trans hf_len
  have hcomp : set_timestamp_ranges (a0 :: l') es = some es3 := by
    unfold set_timestamp_ranges
    rw [hh, Option.some_bind, hfeq, Option.some_bind, hfp, Option.some_bind, hal,
      Option.some_bind]
    exact hleq
  refine ⟨es3, hcomp, hl_len.trans hlen_2, ?_, ?_, ?_, ?_⟩
  · -- anchor indices are untouched
    intro i hi
    have hial : i ≤ al := sorted_le_getLast hs hal hi
    rw [hl_keep i (by omega)]
    exact h_keep2 i hi
  · -- the head gap
    intro a hha i hia
    rw [List.head?_cons, Option.some_inj] at hha
    subst hha
    have hia_al : i < al := Nat.lt_of_lt_of_le hia (sorted_head_le hs hh hal_mem)
    rw [hl_keep i (by omega)]
    have hgap : pair_gap (a0 :: l') i = none := by
      apply pair_gap_none_of_forall
      intro x hx hxlt
      have := sorted_head_le hs hh hx
      omega
    rw [hp_none i hgap]
    exact hf_write i hia
  · -- the interior gaps
    intro i a b hab
    obtain ⟨ham, hbm, hai, hib⟩ := pair_gap_mem hab
    have hbal : b ≤ al := sorted_le_getLast hs hal hbm
    rw [hl_keep i (by omega)]
    rw [hp_some i a b hab, ts_at_congr (hkeep_mem a ham), ts_at_congr (hkeep_mem b hbm)]
    have ha0a : a0 ≤ a := sorted_head_le hs hh ham
    rw [hf_keep i (by omega)]
  · -- the tail gap
    intro a hla i hai hilen
    rw [hla, Option.some_inj] at hal
    subst hal
    have h2 : es3[i]? = (es2[i]?).map (upd_ts (.RangeEnd (ts_at es2 a))) :=
      hl_write i hai (hlen_2.symm ▸ hilen)
    rw [h2, ts_at_congr (h_keep2 a hal_mem)]
    have hgap : pair_gap (a0 :: l') i = none := by
      rcases hpg : pair_gap (a0 :: l') i with _ | ⟨c, d⟩
      · rfl
      · obtain ⟨hcm, hdm, hci, hid⟩ := pair_gap_mem hpg
        have := sorted_le_getLast hs hla hdm
        omega
    rw [hp_none i hgap]
    have ha0a : a0 ≤ a := sorted_head_le hs hh hal_mem
    rw [hf_keep i (by omega)]

/-! ### Consequences for `fill_step` (filler applied to the complete anchor set) -/

lemma fill_step_ne_nil {es es2 : List TimelineEntity} (h : fill_step es = some es2) :
    get_exact_ts_indices es ≠ [] := by
  intro hnil
  rw [fill_step, hnil] at h
  simp [set_timestamp_ranges] at h

lemma fill_step_total {es : List TimelineEntity} {j : Nat} (hj : is_anchor es j) :
    ∃ es2, fill_step es = some es2 := by
  have hne : get_exact_ts_indices es ≠ [] := by
    intro hnil
    have hm := mem_get_exact_ts_indices.mpr hj
    rw [hnil] at hm
    exact List.not_mem_nil j hm
  obtain ⟨es2, heq, _⟩ :=
    set_timestamp_ranges_spec _ es hne (get_exact_ts_indices_sorted es)
      fun i hi => mem_get_exact_ts_indices.mp hi
  exact ⟨es2, heq⟩

lemma fill_step_spec {es es2 : List TimelineEntity} (h : fill_step es = some es2) :
    es2.length = es.length ∧
    (∀ i : Nat, is_anchor es i → es2[i]? = es[i]?) ∧
    (∀ i : Nat, ¬ is_anchor es i → i < es.length →
      ∃ rts, is_range_kind rts ∧ es2[i]? = (es[i]?).map (upd_ts rts)) := by
  have hne := fill_step_ne_nil h
  obtain ⟨es2', heq, hlen, hmem, hhead, hpairs, htail⟩ :=
    set_timestamp_ranges_spec (get_exact_ts_indices es) es hne (get_exact_ts_indices_sorted es)
      fun i hi => mem_get_exact_ts_indices.mp hi
  rw [fill_step] at h
  rw [heq] at h
  obtain rfl : es2' = es2 := Option.some_inj.mp h
  refine ⟨hlen, fun i hi => hmem i (mem_get_exact_ts_indices.mpr hi), ?_⟩
  intro i hna hilen
  have hnm : i ∉ get_exact_ts_indices es := fun hm => hna (mem_get_exact_ts_indices.mp hm)
  rcases pair_gap_classify hne (get_exact_ts_indices_sorted es) (i := i) with
    hm | ⟨a, ha, hia⟩ | ⟨a, ha, hai⟩ | ⟨⟨a, b⟩, hp⟩
  · exact absurd hm hnm
  · exact ⟨TimelineTimestamp.RangeStart (ts_at es a), trivial, hhead a ha i hia⟩
  · exact ⟨TimelineTimestamp.RangeEnd (ts_at es a), trivial, htail a ha i hai hilen⟩
  · exact ⟨TimelineTimestamp.Range (ts_at es b) (ts_at es a), trivial, hpairs i a b hp⟩

lemma fill_step_keeps_exact {es es2 : List TimelineEntity} (h : fill_step es = some es2)
    {i : Nat} {t : Timestamp} {ty : TimestampType} :
    (es2[i]?).bind TimelineEntity.timestamp = some (.Exact t ty) ↔
      (es[i]?).bind TimelineEntity.timestamp = some (.Exact t ty) := by
  obtain ⟨hlen, hanch, hgap⟩ := fill_step_spec h
  constructor
  · intro h2
    by_cases ha : is_anchor es i
    · rw [hanch i ha] at h2
      exact h2
    · by_cases hil : i < es.length
      · obtain ⟨rts, hrk, heq2⟩ := hgap i ha hil
        rw [heq2] at h2
        obtain ⟨e, he⟩ : ∃ e, es[i]? = some e := by
          rw [List.getElem?_eq_getElem hil]
          exact ⟨_, rfl⟩
        rw [he] at h2
        simp only [Option.map_some', Option.some_bind, upd_ts, Option.some_inj] at h2
        subst h2
        simp [is_range_kind] at hrk
      · rw [List.getElem?_eq_none (by omega : es2.length ≤ i)] at h2
        cases h2
  · intro h2
    have ha := is_anchor_of_bind h2
    rw [hanch i ha]
    exact h2

lemma fill_step_entity_unchanged_of_exact {es es2 : List TimelineEntity}
    (h : fill_step es = some es2) {i : Nat} {t : Timestamp} {ty : TimestampType}
    (h2 : (es2[i]?).bind TimelineEntity.timestamp = some (.Exact t ty)) :
    es2[i]? = es[i]? := by
  obtain ⟨_, hanch, _⟩ := fill_step_spec h
  exact hanch i (is_anchor_of_bind ((fill_step_keeps_exact h).mp h2))

lemma fill_step_covers {es es2 : List TimelineEntity} (h : fill_step es = some es2) :
    ∀ e ∈ es2, (e.timestamp).isSome := by
  obtain ⟨hlen, hanch, hgap⟩ := fill_step_spec h
  intro e he
  obtain ⟨i, hei⟩ := List.mem_iff_getElem?.mp he
  have hilen : i < es.length := by
    have := (List.getElem?_eq_some.mp hei).1
    omega
  by_cases ha : is_anchor es i
  · obtain ⟨e0, t, ty, he0, ht0⟩ := ha
    rw [hanch i ⟨e0, t, ty, he0, ht0⟩, he0, Option.some_inj] at hei
    subst hei
    rw [ht0]
    rfl
  · obtain ⟨rts, hrk, heq2⟩ := hgap i ha hilen
    obtain ⟨e0, he0⟩ : ∃ e0, es[i]? = some e0 := by
      rw [List.getElem?_eq_getElem hilen]
      exact ⟨_, rfl⟩
    rw [heq2, he0] at hei
    simp only [Option.map_some', Option.some_inj] at hei
    rw [← hei]
    rfl

/-! ### Lemmas about the promotion passes -/

lemma pattern_match_entity_no_entry {regexes : List (String → Bool)} {e : TimelineEntity}
    (h : e.shimcache_entry = none) : pattern_match_entity regexes e = e := by
  unfold pattern_match_entity
  rw [h]

lemma pattern_match_entity_entry {regexes : List (String → Bool)} {e : TimelineEntity}
    {sce : ShimcacheEntry} (h : e.shimcache_entry = some sce) :
    pattern_match_entity regexes e = pattern_apply regexes sce e := by
  unfold pattern_match_entity
  rw [h]

lemma pattern_apply_no_match {regexes : List (String → Bool)} {sce : ShimcacheEntry}
    {e : TimelineEntity}
    (h : regexes.find? (fun re => pattern_matches_entry re sce.entry_type) = none) :
    pattern_apply regexes sce e = e := by
  unfold pattern_apply
  rw [h]

lemma pattern_apply_no_ts {regexes : List (String → Bool)} {sce : ShimcacheEntry}
    {e : TimelineEntity} (h : sce.last_modified_ts = none) :
    pattern_apply regexes sce e = e := by
  unfold pattern_apply
  rcases hf : regexes.find? (fun re => pattern_matches_entry re sce.entry_type) with _ | re
  · rfl
  · rw [h]

lemma pattern_apply_match_ts {regexes : List (String → Bool)} {sce : ShimcacheEntry}
    {e : TimelineEntity} {ts : Timestamp}
    (hf : (regexes.find? (fun re => pattern_matches_entry re sce.entry_type)).isSome)
    (h : sce.last_modified_ts = some ts) :
    pattern_apply regexes sce e = { e with timestamp := some (.Exact ts .PatternMatch) } := by
  unfold pattern_apply
  rcases hff : regexes.find? (fun re => pattern_matches_entry re sce.entry_type) with _ | re
  · rw [hff] at hf
    cases hf
  · rw [h]

lemma pattern_match_entity_cases (regexes : List (String → Bool)) (e : TimelineEntity) :
    pattern_match_entity regexes e = e ∨
    ∃ sce ts, e.shimcache_entry = some sce ∧ sce.last_modified_ts = some ts ∧
      pattern_match_entity regexes e = { e with timestamp := some (.Exact ts .PatternMatch) } := by
  rcases hs : e.shimcache_entry with _ | sce
  · exact Or.inl (pattern_match_entity_no_entry hs)
  · rw [pattern_match_entity_entry hs]
    rcases hf : regexes.find? (fun re => pattern_matches_entry re sce.entry_type) with _ | re
    · exact Or.inl (pattern_apply_no_match hf)
    · rcases hl : sce.last_modified_ts with _ | ts
      · exact Or.inl (pattern_apply_no_ts hl)
      · refine Or.inr ⟨sce, ts, rfl, hl, ?_⟩
        rw [← hs]
        exact pattern_apply_match_ts (by rw [hf]; rfl) hl

lemma near_ts_step_no_entry {e : TimelineEntity} (h : e.shimcache_entry = none) :
    near_ts_step e = e := by
  unfold near_ts_step
  rw [h]

lemma near_ts_step_no_file {e : TimelineEntity} (h : e.amcache_file = none) :
    near_ts_step e = e := by
  rcases hs : e.shimcache_entry with _ | sce
  · exact near_ts_step_no_entry hs
  · unfold near_ts_step
    rw [hs, h]

lemma near_ts_step_eq {e : TimelineEntity} {sce : ShimcacheEntry} {afe : FileEntry}
    (hs : e.shimcache_entry = some sce) (ha : e.amcache_file = some afe) :
    near_ts_step e = near_ts_apply sce afe e := by
  unfold near_ts_step
  rw [hs, ha]

lemma near_ts_apply_no_ts {sce : ShimcacheEntry} {afe : FileEntry} {e : TimelineEntity}
    (h : sce.last_modified_ts = none) : near_ts_apply sce afe e = e := by
  unfold near_ts_apply
  rw [h]

lemma near_ts_apply_far {sce : ShimcacheEntry} {afe : FileEntry} {e : TimelineEntity}
    {ts : Timestamp} (h : sce.last_modified_ts = some ts)
    (hf : MAX_TIME_DIFFERENCE < |ts - afe.key_last_modified_ts|) :
    near_ts_apply sce afe e = e := by
  unfold near_ts_apply
  simp only [h]
  rw [if_pos hf]

lemma near_ts_apply_near {sce : ShimcacheEntry} {afe : FileEntry} {e : TimelineEntity}
    {ts : Timestamp} (h : sce.last_modified_ts = some ts)
    (hf : ¬ MAX_TIME_DIFFERENCE < |ts - afe.key_last_modified_ts|) :
    near_ts_apply sce afe e =
      { e with timestamp := some (.Exact afe.key_last_modified_ts .NearTSMatch) } := by
  unfold near_ts_apply
  simp only [h]
  rw [if_neg hf]

lemma near_ts_step_cases (e : TimelineEntity) :
    near_ts_step e = e ∨
    ∃ afe, e.amcache_file = some afe ∧
      near_ts_step e =
        { e with timestamp := some (.Exact afe.key_last_modified_ts .NearTSMatch) } := by
  rcases hs : e.shimcache_entry with _ | sce
  · exact Or.inl (near_ts_step_no_entry hs)
  rcases ha : e.amcache_file with _ | afe
  · exact Or.inl (near_ts_step_no_file ha)
  rw [near_ts_step_eq hs ha]
  rcases hl : sce.last_modified_ts with _ | ts
  · exact Or.inl (near_ts_apply_no_ts hl)
  by_cases hfar : MAX_TIME_DIFFERENCE < |ts - afe.key_last_modified_ts|
  · exact Or.inl (near_ts_apply_far hl hfar)
  · refine Or.inr ⟨afe, rfl, ?_⟩
    rw [← hs, ← ha]
    exact near_ts_apply_near hl hfar

lemma range_match_step_no_entry {e : TimelineEntity} (h : e.shimcache_entry = none) :
    range_match_step e = e := by
  unfold range_match_step
  rw [h]

lemma range_match_step_no_file {e : TimelineEntity} (h : e.amcache_file = none) :
    range_match_step e = e := by
  rcases hs : e.shimcache_entry with _ | sce
  · exact range_match_step_no_entry hs
  · unfold range_match_step
    rw [hs, h]

lemma range_match_step_eq {e : TimelineEntity} {sce : ShimcacheEntry} {afe : FileEntry}
    (hs : e.shimcache_entry = some sce) (ha : e.amcache_file = some afe) :
    range_match_step e = range_match_apply sce afe e := by
  unfold range_match_step
  rw [hs, ha]

lemma range_match_apply_program {sce : ShimcacheEntry} {afe : FileEntry} {e : TimelineEntity}
    {pn : String} (h : sce.entry_type = .Program pn) : range_match_apply sce afe e = e := by
  unfold range_match_apply
  rw [h]

lemma range_match_apply_not_range {sce : ShimcacheEntry} {afe : FileEntry} {e : TimelineEntity}
    (h : ∀ f t : Timestamp, e.timestamp ≠ some (.Range f t)) :
    range_match_apply sce afe e = e := by
  unfold range_match_apply
  rcases hp : sce.entry_type with p | pn
  · rcases ht : e.timestamp with _ | tt
    · rfl
    · rcases tt with ⟨t, ty⟩ | ⟨f, t⟩ | t | t
      · rfl
      · exact absurd ht (h f t)
      · rfl
      · rfl
  · rfl

lemma range_match_apply_out {sce : ShimcacheEntry} {afe : FileEntry} {e : TimelineEntity}
    {f t : Timestamp} (ht : e.timestamp = some (.Range f t))
    (hout : ¬ (f < afe.key_last_modified_ts ∧ afe.key_last_modified_ts < t)) :
    range_match_apply sce afe e = e := by
  unfold range_match_apply
  rcases hp : sce.entry_type with p | pn
  · simp only [ht]
    rw [if_neg hout]
  · rfl

lemma range_match_apply_promote {sce : ShimcacheEntry} {afe : FileEntry} {e : TimelineEntity}
    {p : String} {f t : Timestamp} (hp : sce.entry_type = .File p)
    (ht : e.timestamp = some (.Range f t))
    (h1 : f < afe.key_last_modified_ts) (h2 : afe.key_last_modified_ts < t) :
    range_match_apply sce afe e =
      { e with timestamp := some (.Exact afe.key_last_modified_ts .AmcacheRangeMatch) } := by
  unfold range_match_apply
  simp only [hp, ht]
  rw [if_pos ⟨h1, h2⟩]

lemma range_match_step_not_range {e : TimelineEntity}
    (h : ∀ f t : Timestamp, e.timestamp ≠ some (.Range f t)) : range_match_step e = e := by
  rcases hs : e.shimcache_entry with _ | sce
  · exact range_match_step_no_entry hs
  rcases ha : e.amcache_file with _ | afe
  · exact range_match_step_no_file ha
  rw [range_match_step_eq hs ha]
  exact range_match_apply_not_range h

lemma range_match_step_out {e : TimelineEntity} {f t : Timestamp}
    (ht : e.timestamp = some (.Range f t)) {afe : FileEntry} (ha : e.amcache_file = some afe)
    (hout : ¬ (f < afe.key_last_modified_ts ∧ afe.key_last_modified_ts < t)) :
    range_match_step e = e := by
  rcases hs : e.shimcache_entry with _ | sce
  · exact range_match_step_no_entry hs
  rw [range_match_step_eq hs ha]
  exact range_match_apply_out ht hout

lemma range_match_step_cases (e : TimelineEntity) :
    range_match_step e = e ∨
    ∃ afe f t, e.amcache_file = some afe ∧ e.timestamp = some (.Range f t) ∧
      f < afe.key_last_modified_ts ∧ afe.key_last_modified_ts < t ∧
      range_match_step e =
        { e with timestamp := some (.Exact afe.key_last_modified_ts .AmcacheRangeMatch) } := by
  rcases hs : e.shimcache_entry with _ | sce
  · exact Or.inl (range_match_step_no_entry hs)
  rcases ha : e.amcache_file with _ | afe
  · exact Or.inl (range_match_step_no_file ha)
  rw [range_match_step_eq hs ha]
  rcases ht : e.timestamp with _ | tt
  · exact Or.inl (range_match_apply_not_range fun f t hc => by rw [ht] at hc; cases hc)
  rcases tt with ⟨t, ty⟩ | ⟨f, t⟩ | t | t
  · exact Or.inl (range_match_apply_not_range fun f2 t2 hc => by
      rw [ht] at hc
      cases hc)
  · by_cases hin : f < afe.key_last_modified_ts ∧ afe.key_last_modified_ts < t
    · rcases hp : sce.entry_type with p | pn
      · refine Or.inr ⟨afe, f, t, rfl, rfl, hin.1, hin.2, ?_⟩
        rw [← hs, ← ha]
        exact range_match_apply_promote hp ht hin.1 hin.2
      · exact Or.inl (range_match_apply_program hp)
    · exact Or.inl (range_match_apply_out ht hin)
  · exact Or.inl (range_match_apply_not_range fun f2 t2 hc => by
      rw [ht] at hc
      cases hc)
  · exact Or.inl (range_match_apply_not_range fun f2 t2 hc => by
      rw [ht] at hc
      cases hc)

/-! ### Lemmas about the Pass-B attach loops -/

lemma file_entry_matches_spec {fe : FileEntry} {e : TimelineEntity}
    (h : file_entry_matches fe e = true) :
    ∃ sce path, e.shimcache_entry = some sce ∧ sce.entry_type = EntryType.File path := by
  unfold file_entry_matches at h
  rcases hs : e.shimcache_entry with _ | sce
  · simp [hs] at h
  · simp only [hs] at h
    rcases hp : sce.entry_type with p | pn
    · exact ⟨sce, p, rfl, hp⟩
    · simp [hp] at h

lemma program_entry_matches_spec {pe : ProgramEntry} {e : TimelineEntity}
    (h : program_entry_matches pe e = true) :
    ∃ sce pn, e.shimcache_entry = some sce ∧ sce.entry_type = EntryType.Program pn := by
  unfold program_entry_matches at h
  rcases hs : e.shimcache_entry with _ | sce
  · simp [hs] at h
  · simp only [hs] at h
    rcases hp : sce.entry_type with p | pn
    · simp [hp] at h
    · exact ⟨sce, pn, rfl, hp⟩

lemma attach_file_entry_pointwise (fe : FileEntry) :
    ∀ (es : List TimelineEntity) (i : Nat),
      (attach_file_entry fe es)[i]? = es[i]? ∨
      ∃ e, es[i]? = some e ∧ file_entry_matches fe e = true ∧
        (attach_file_entry fe es)[i]? = some { e with amcache_file := some fe }
  | [], _ => Or.inl rfl
  | entity :: rest, i => by
    by_cases hm : file_entry_matches fe entity = true
    · have hred : attach_file_entry fe (entity :: rest) =
          { entity with amcache_file := some fe } :: rest := by
        rw [attach_file_entry, if_pos hm]
      rcases i with _ | j
      · rw [hred, List.getElem?_cons_zero]
        exact Or.inr ⟨entity, List.getElem?_cons_zero, hm, rfl⟩
      · rw [hred, List.getElem?_cons_succ, List.getElem?_cons_succ]
        exact Or.inl rfl
    · have hred : attach_file_entry fe (entity :: rest) =
          entity :: attach_file_entry fe rest := by
        rw [attach_file_entry, if_neg hm]
      rcases i with _ | j
      · rw [hred, List.getElem?_cons_zero, List.getElem?_cons_zero]
        exact Or.inl rfl
      · rw [hred, List.getElem?_cons_succ, List.getElem?_cons_succ]
        exact attach_file_entry_pointwise fe rest j

lemma attach_program_entry_pointwise (pe : ProgramEntry) :
    ∀ (es : List TimelineEntity) (i : Nat),
      (attach_program_entry pe es)[i]? = es[i]? ∨
      ∃ e, es[i]? = some e ∧ program_entry_matches pe e = true ∧
        (attach_program_entry pe es)[i]? = some { e with amcache_program := some pe }
  | [], _ => Or.inl rfl
  | entity :: rest, i => by
    by_cases hm : program_entry_matches pe entity = true
    · have hred : attach_program_entry pe (entity :: rest) =
          { entity with amcache_program := some pe } :: rest := by
        rw [attach_program_entry, if_pos hm]
      rcases i with _ | j
      · rw [hred, List.getElem?_cons_zero]
        exact Or.inr ⟨entity, List.getElem?_cons_zero, hm, rfl⟩
      · rw [hred, List.getElem?_cons_succ, List.getElem?_cons_succ]
        exact Or.inl rfl
    · have hred : attach_program_entry pe (entity :: rest) =
          entity :: attach_program_entry pe rest := by
        rw [attach_program_entry, if_neg hm]
      rcases i with _ | j
      · rw [hred, List.getElem?_cons_zero, List.getElem?_cons_zero]
        exact Or.inl rfl
      · rw [hred, List.getElem?_cons_succ, List.getElem?_cons_succ]
        exact attach_program_entry_pointwise pe rest j

/-- Relation between an entity vector and any vector obtained from it by Pass-B
attachments: every slot either is untouched, or keeps its timestamp and shimcache
record while gaining Amcache payloads — and its `amcache_file` can change only when
the slot holds a shimcache `File` record. -/
def attach_compatible (es es2 : List TimelineEntity) : Prop :=
  ∀ i : Nat,
    es2[i]? = es[i]? ∨
    ∃ e e2, es[i]? = some e ∧ es2[i]? = some e2 ∧
      e2.timestamp = e.timestamp ∧ e2.shimcache_entry = e.shimcache_entry ∧
      (e2.amcache_file = e.amcache_file ∨
        ∃ sce path, e.shimcache_entry = some sce ∧ sce.entry_type = EntryType.File path)

lemma attach_compatible_refl (es : List TimelineEntity) : attach_compatible es es :=
  fun _ => Or.inl rfl

lemma attach_compatible_trans {es es2 es3 : List TimelineEntity}
    (h12 : attach_compatible es es2) (h23 : attach_compatible es2 es3) :
    attach_compatible es es3 := by
  intro i
  rcases h12 i with h | ⟨e, e2, he, he2, ht, hs, ha⟩
  · rcases h23 i with h2 | ⟨e2, e3, he2, he3, ht2, hs2, ha2⟩
    · exact Or.inl (h2.trans h)
    · refine Or.inr ⟨e2, e3, h ▸ he2, he3, ht2, hs2, ha2⟩
  · rcases h23 i with h2 | ⟨e2b, e3, he2b, he3, ht2, hs2, ha2⟩
    · exact Or.inr ⟨e, e2, he, h2.trans he2, ht, hs, ha⟩
    · rw [he2] at he2b
      obtain rfl : e2b = e2 := (Option.some_inj.mp he2b).symm
      refine Or.inr ⟨e, e3, he, he3, ht2.trans ht, hs2.trans hs, ?_⟩
      rcases ha2 with ha2 | ⟨sce, path, hsce, hp⟩
      · rcases ha with ha | hfile
        · exact Or.inl (ha2.trans ha)
        · exact Or.inr hfile
      · rw [hs] at hsce
        exact Or.inr ⟨sce, path, hsce, hp⟩

lemma attach_file_entry_compatible (fe : FileEntry) (es : List TimelineEntity) :
    attach_compatible es (attach_file_entry fe es) := by
  intro i
  rcases attach_file_entry_pointwise fe es i with h | ⟨e, he, hm, he2⟩
  · exact Or.inl h
  · obtain ⟨sce, path, hs, hp⟩ := file_entry_matches_spec hm
    exact Or.inr ⟨e, _, he, he2, rfl, rfl, Or.inr ⟨sce, path, hs, hp⟩⟩

lemma attach_program_entry_compatible (pe : ProgramEntry) (es : List TimelineEntity) :
    attach_compatible es (attach_program_entry pe es) := by
  intro i
  rcases attach_program_entry_pointwise pe es i with h | ⟨e, he, hm, he2⟩
  · exact Or.inl h
  · exact Or.inr ⟨e, _, he, he2, rfl, rfl, Or.inl rfl⟩

lemma foldl_attach_file_compatible :
    ∀ (fes : List FileEntry) (es : List TimelineEntity),
      attach_compatible es (fes.foldl (fun es2 fe => attach_file_entry fe es2) es)
  | [], es => attach_compatible_refl es
  | fe :: rest, es => by
    rw [List.foldl_cons]
    exact attach_compatible_trans (attach_file_entry_compatible fe es)
      (foldl_attach_file_compatible rest _)

lemma foldl_attach_program_compatible :
    ∀ (pes : List ProgramEntry) (es : List TimelineEntity),
      attach_compatible es (pes.foldl (fun es2 pe => attach_program_entry pe es2) es)
  | [], es => attach_compatible_refl es
  | pe :: rest, es => by
    rw [List.foldl_cons]
    exact attach_compatible_trans (attach_program_entry_compatible pe es)
      (foldl_attach_program_compatible rest _)

lemma attach_file_entry_keeps_head {fe : FileEntry} {es : List TimelineEntity}
    {e0 : TimelineEntity} (h : es[0]? = some e0) (hs : e0.shimcache_entry = none) :
    (attach_file_entry fe es)[0]? = some e0 := by
  rcases attach_file_entry_pointwise fe es 0 with h2 | ⟨e, he, hm, he2⟩
  · rw [h2]
    exact h
  · rw [h] at he
    obtain rfl : e = e0 := (Option.some_inj.mp he).symm
    obtain ⟨sce, path, hsce, _⟩ := file_entry_matches_spec hm
    rw [hs] at hsce
    cases hsce

lemma attach_program_entry_keeps_head {pe : ProgramEntry} {es : List TimelineEntity}
    {e0 : TimelineEntity} (h : es[0]? = some e0) (hs : e0.shimcache_entry = none) :
    (attach_program_entry pe es)[0]? = some e0 := by
  rcases attach_program_entry_pointwise pe es 0 with h2 | ⟨e, he, hm, he2⟩
  · rw [h2]
    exact h
  · rw [h] at he
    obtain rfl : e = e0 := (Option.some_inj.mp he).symm
    obtain ⟨sce, pn, hsce, _⟩ := program_entry_matches_spec hm
    rw [hs] at hsce
    cases hsce

lemma foldl_attach_file_keeps_head :
    ∀ (fes : List FileEntry) {es : List TimelineEntity} {e0 : TimelineEntity},
      es[0]? = some e0 → e0.shimcache_entry = none →
      (fes.foldl (fun es2 fe => attach_file_entry fe es2) es)[0]? = some e0
  | [], _, _, h, _ => h
  | fe :: rest, es, e0, h, hs => by
    rw [List.foldl_cons]
    exact foldl_attach_file_keeps_head rest (attach_file_entry_keeps_head h hs) hs

lemma foldl_attach_program_keeps_head :
    ∀ (pes : List ProgramEntry) {es : List TimelineEntity} {e0 : TimelineEntity},
      es[0]? = some e0 → e0.shimcache_entry = none →
      (pes.foldl (fun es2 pe => attach_program_entry pe es2) es)[0]? = some e0
  | [], _, _, h, _ => h
  | pe :: rest, es, e0, h, hs => by
    rw [List.foldl_cons]
    exact foldl_attach_program_keeps_head rest (attach_program_entry_keeps_head h hs) hs

/-! ### Stage lemmas for the pipeline -/

lemma pattern_match_entity_fields (regexes : List (String → Bool)) (e : TimelineEntity) :
    (pattern_match_entity regexes e).amcache_file = e.amcache_file ∧
    (pattern_match_entity regexes e).shimcache_entry = e.shimcache_entry := by
  rcases pattern_match_entity_cases regexes e with h | ⟨sce, ts, _, _, h⟩ <;> rw [h] <;>
    exact ⟨rfl, rfl⟩

lemma near_ts_step_fields (e : TimelineEntity) :
    (near_ts_step e).amcache_file = e.amcache_file ∧
    (near_ts_step e).shimcache_entry = e.shimcache_entry := by
  rcases near_ts_step_cases e with h | ⟨afe, _, h⟩ <;> rw [h] <;> exact ⟨rfl, rfl⟩

lemma range_match_step_fields (e : TimelineEntity) :
    (range_match_step e).amcache_file = e.amcache_file ∧
    (range_match_step e).shimcache_entry = e.shimcache_entry := by
  rcases range_match_step_cases e with h | ⟨afe, f, t, _, _, _, _, h⟩ <;> rw [h] <;>
    exact ⟨rfl, rfl⟩

lemma initial_entities_zero (shimcache : ShimcacheArtifact) :
    (initial_entities shimcache)[0]? = some (shimcache_head_entity shimcache) := by
  unfold initial_entities
  rw [List.getElem?_cons_zero]

lemma initial_entities_succ (shimcache : ShimcacheArtifact) (j : Nat) :
    (initial_entities shimcache)[j + 1]? =
      (shimcache.entries[j]?).map TimelineEntity.with_shimcache_entry := by
  unfold initial_entities
  rw [List.getElem?_cons_succ, List.getElem?_map]

lemma pattern_pass_getElem? (regexes : List (String → Bool)) (shimcache : ShimcacheArtifact)
    (i : Nat) :
    (pattern_pass regexes shimcache)[i]? =
      ((initial_entities shimcache)[i]?).map (pattern_match_entity regexes) := by
  unfold pattern_pass
  rw [List.getElem?_map]

lemma pattern_pass_zero (regexes : List (String → Bool)) (shimcache : ShimcacheArtifact) :
    (pattern_pass regexes shimcache)[0]? = some (shimcache_head_entity shimcache) := by
  rw [pattern_pass_getElem?, initial_entities_zero, Option.map_some',
    pattern_match_entity_no_entry rfl]

lemma pattern_pass_exact_src {regexes : List (String → Bool)} {shimcache : ShimcacheArtifact}
    {i : Nat} {t : Timestamp} {ty : TimestampType}
    (h : ((pattern_pass regexes shimcache)[i]?).bind TimelineEntity.timestamp =
      some (.Exact t ty)) :
    (i = 0 ∧ t = shimcache.last_update_ts ∧ ty = .ShimcacheLastUpdate) ∨
    (∃ j entry, i = j + 1 ∧ shimcache.entries[j]? = some entry ∧
      entry.last_modified_ts = some t ∧ ty = .PatternMatch) := by
  rcases i with _ | j
  · rw [pattern_pass_zero] at h
    simp only [Option.some_bind, shimcache_head_entity, Option.some_inj] at h
    cases h
    exact Or.inl ⟨rfl, rfl, rfl⟩
  · rw [pattern_pass_getElem?, initial_entities_succ] at h
    rcases he : shimcache.entries[j]? with _ | entry
    · rw [he] at h
      cases h
    · rw [he] at h
      simp only [Option.map_some', Option.some_bind] at h
      rcases pattern_match_entity_cases regexes
        (TimelineEntity.with_shimcache_entry entry) with hc | ⟨sce, ts0, hsc, hlm, hc⟩
      · rw [hc] at h
        simp [TimelineEntity.with_shimcache_entry] at h
      · rw [hc] at h
        simp only [Option.some_inj] at h
        cases h
        have hsce : sce = entry := by
          simp [TimelineEntity.with_shimcache_entry] at hsc
          exact hsc.symm
        exact Or.inr ⟨j, entry, rfl, he, hsce ▸ hlm, rfl⟩

lemma exact_prop_pattern_pass (regexes : List (String → Bool))
    (shimcache : ShimcacheArtifact) : exact_prop (pattern_pass regexes shimcache) := by
  intro i e he t ty ht
  have hb : ((pattern_pass regexes shimcache)[i]?).bind TimelineEntity.timestamp =
      some (.Exact t ty) := by
    rw [he]
    simpa using ht
  rcases pattern_pass_exact_src hb with ⟨hi, htv, hty⟩ | ⟨j, entry, hi, hej, hlm, hty⟩
  · subst hi
    rw [pattern_pass_zero] at he
    obtain rfl : shimcache_head_entity shimcache = e := Option.some_inj.mp he
    exact Or.inl ⟨hty, rfl⟩
  · exact Or.inr hty

lemma exact_prop_fill {es es2 : List TimelineEntity} (h : fill_step es = some es2)
    (hp : exact_prop es) : exact_prop es2 := by
  intro i e he t ty ht
  have hb : (es2[i]?).bind TimelineEntity.timestamp = some (.Exact t ty) := by
    rw [he]
    simpa using ht
  have heq := fill_step_entity_unchanged_of_exact h hb
  rw [heq] at he
  exact hp i e he t ty ht

lemma exact_prop_attach {es es2 : List TimelineEntity} (hc : attach_compatible es es2)
    (hp : exact_prop es) : exact_prop es2 := by
  intro i e2 he2 t ty ht
  rcases hc i with h | ⟨e, e2b, he, he2b, hts, hsh, _⟩
  · rw [h] at he2
    exact hp i e2 he2 t ty ht
  · rw [he2b] at he2
    obtain rfl : e2b = e2 := Option.some_inj.mp he2
    rw [ht] at hts
    rcases hp i e he t ty hts.symm with ⟨hty, hsn⟩ | hty
    · exact Or.inl ⟨hty, by rw [hsh, hsn]⟩
    · exact Or.inr hty

lemma fill_step_fields {es es2 : List TimelineEntity} (h : fill_step es = some es2) :
    ∀ (i : Nat) e2, es2[i]? = some e2 → ∃ e, es[i]? = some e ∧
      e2.amcache_file = e.amcache_file ∧ e2.shimcache_entry = e.shimcache_entry := by
  obtain ⟨hlen, hanch, hgap⟩ := fill_step_spec h
  intro i e2 he2
  by_cases ha : is_anchor es i
  · rw [hanch i ha] at he2
    exact ⟨e2, he2, rfl, rfl⟩
  · have hi : i < es.length := by
      have := (List.getElem?_eq_some.mp he2).1
      omega
    obtain ⟨rts, _, heq⟩ := hgap i ha hi
    obtain ⟨e, he⟩ : ∃ e, es[i]? = some e := by
      rw [List.getElem?_eq_getElem hi]
      exact ⟨_, rfl⟩
    rw [heq, he] at he2
    simp only [Option.map_some', Option.some_inj] at he2
    rw [← he2]
    exact ⟨e, he, rfl, rfl⟩

lemma no_amcache_file_initial (shimcache : ShimcacheArtifact) :
    no_amcache_file (initial_entities shimcache) := by
  intro i e he
  rcases i with _ | j
  · rw [initial_entities_zero] at he
    obtain rfl := Option.some_inj.mp he.symm
    rfl
  · rw [initial_entities_succ] at he
    rcases hj : shimcache.entries[j]? with _ | entry
    · rw [hj] at he
      cases he
    · rw [hj] at he
      simp only [Option.map_some', Option.some_inj] at he
      rw [← he]
      rfl

lemma no_amcache_file_pattern_pass (regexes : List (String → Bool))
    (shimcache : ShimcacheArtifact) : no_amcache_file (pattern_pass regexes shimcache) := by
  intro i e he
  rw [pattern_pass_getElem?] at he
  rcases h0 : (initial_entities shimcache)[i]? with _ | e0
  · rw [h0] at he
    cases he
  · rw [h0] at he
    simp only [Option.map_some', Option.some_inj] at he
    rw [← he, (pattern_match_entity_fields regexes e0).1]
    exact no_amcache_file_initial shimcache i e0 h0

lemma no_amcache_file_fill {es es2 : List TimelineEntity} (h : fill_step es = some es2)
    (hn : no_amcache_file es) : no_amcache_file es2 := by
  intro i e2 he2
  obtain ⟨e, he, haf, _⟩ := fill_step_fields h i e2 he2
  rw [haf]
  exact hn i e he

lemma amcache_file_requires_of_attach {es es2 : List TimelineEntity}
    (hn : no_amcache_file es) (hc : attach_compatible es es2) :
    amcache_file_requires_file_record es2 := by
  intro i e2 he2 hne
  rcases hc i with h | ⟨e, e2b, he, he2b, _, hsh, ha⟩
  · rw [h] at he2
    exact absurd (hn i e2 he2) hne
  · rw [he2b] at he2
    obtain rfl : e2b = e2 := Option.some_inj.mp he2
    rcases ha with ha | ⟨sce, path, hsce, hp⟩
    · rw [hn i e he] at ha
      exact absurd ha hne
    · exact ⟨sce, path, by rw [hsh, hsce], hp⟩

lemma amcache_file_requires_map_near {es : List TimelineEntity}
    (h : amcache_file_requires_file_record es) :
    amcache_file_requires_file_record (es.map near_ts_step) := by
  intro i e2 he2 hne
  rw [List.getElem?_map] at he2
  rcases h0 : es[i]? with _ | e
  · rw [h0] at he2
    cases he2
  · rw [h0] at he2
    simp only [Option.map_some', Option.some_inj] at he2
    rw [← he2] at hne ⊢
    rw [(near_ts_step_fields e).1] at hne
    rw [(near_ts_step_fields e).2]
    exact h i e h0 hne

lemma amcache_file_requires_fill {es es2 : List TimelineEntity} (h : fill_step es = some es2)
    (hr : amcache_file_requires_file_record es) : amcache_file_requires_file_record es2 := by
  intro i e2 he2 hne
  obtain ⟨e, he, haf, hsh⟩ := fill_step_fields h i e2 he2
  rw [haf] at hne
  rw [hsh]
  exact hr i e he hne

/-! ### Head preservation along the pipeline -/

lemma fill_keeps_head {shimcache : ShimcacheArtifact} {es es2 : List TimelineEntity}
    (h : fill_step es = some es2) (h0 : es[0]? = some (shimcache_head_entity shimcache)) :
    es2[0]? = some (shimcache_head_entity shimcache) := by
  obtain ⟨_, hanch, _⟩ := fill_step_spec h
  rw [hanch 0 ⟨_, _, _, h0, rfl⟩]
  exact h0

lemma map_near_keeps_head {shimcache : ShimcacheArtifact} {es : List TimelineEntity}
    (h0 : es[0]? = some (shimcache_head_entity shimcache)) :
    (es.map near_ts_step)[0]? = some (shimcache_head_entity shimcache) := by
  rw [List.getElem?_map, h0, Option.map_some', near_ts_step_no_entry rfl]

lemma map_range_keeps_head {shimcache : ShimcacheArtifact} {es : List TimelineEntity}
    (h0 : es[0]? = some (shimcache_head_entity shimcache)) :
    (es.map range_match_step)[0]? = some (shimcache_head_entity shimcache) := by
  rw [List.getElem?_map, h0, Option.map_some', range_match_step_no_entry rfl]

lemma attach_folds_keep_head {shimcache : ShimcacheArtifact} (am : AmcacheArtifact)
    {es : List TimelineEntity} (h0 : es[0]? = some (shimcache_head_entity shimcache)) :
    (am.program_entries.foldl (fun es2 pe => attach_program_entry pe es2)
      (am.file_entries.foldl (fun es2 fe => attach_file_entry fe es2) es))[0]? =
      some (shimcache_head_entity shimcache) :=
  foldl_attach_program_keeps_head _
    (foldl_attach_file_keeps_head _ h0 rfl) rfl

lemma first_fill_head {regexes : List (String → Bool)} {shimcache : ShimcacheArtifact}
    {es : List TimelineEntity} (h : first_fill regexes shimcache = some es) :
    es[0]? = some (shimcache_head_entity shimcache) :=
  fill_keeps_head h (pattern_pass_zero regexes shimcache)

lemma attach_pass_head {regexes : List (String → Bool)} {shimcache : ShimcacheArtifact}
    {am : AmcacheArtifact} {es : List TimelineEntity}
    (h : attach_pass regexes shimcache am = some es) :
    es[0]? = some (shimcache_head_entity shimcache) := by
  unfold attach_pass at h
  rw [Option.map_eq_some'] at h
  obtain ⟨es3, h3, rfl⟩ := h
  exact attach_folds_keep_head am (first_fill_head h3)

lemma near_pass_head {regexes : List (String → Bool)} {shimcache : ShimcacheArtifact}
    {am : AmcacheArtifact} {es : List TimelineEntity}
    (h : near_pass regexes shimcache am = some es) :
    es[0]? = some (shimcache_head_entity shimcache) := by
  unfold near_pass at h
  rw [Option.map_eq_some'] at h
  obtain ⟨es4, h4, rfl⟩ := h
  exact map_near_keeps_head (attach_pass_head h4)

lemma second_fill_head {regexes : List (String → Bool)} {shimcache : ShimcacheArtifact}
    {am : AmcacheArtifact} {es : List TimelineEntity}
    (h : second_fill regexes shimcache am = some es) :
    es[0]? = some (shimcache_head_entity shimcache) := by
  unfold second_fill at h
  rw [Option.bind_eq_some] at h
  obtain ⟨es5, h5, h6⟩ := h
  exact fill_keeps_head h6 (near_pass_head h5)

lemma range_match_pass_head {regexes : List (String → Bool)} {shimcache : ShimcacheArtifact}
    {am : AmcacheArtifact} {es : List TimelineEntity}
    (h : range_match_pass regexes shimcache am = some es) :
    es[0]? = some (shimcache_head_entity shimcache) := by
  unfold range_match_pass at h
  rw [Option.map_eq_some'] at h
  obtain ⟨es6, h6, rfl⟩ := h
  exact map_range_keeps_head (second_fill_head h6)

lemma third_fill_head {regexes : List (String → Bool)} {shimcache : ShimcacheArtifact}
    {am : AmcacheArtifact} {es : List TimelineEntity}
    (h : third_fill regexes shimcache am = some es) :
    es[0]? = some (shimcache_head_entity shimcache) := by
  unfold third_fill at h
  rw [Option.bind_eq_some] at h
  obtain ⟨es7, h7, h8⟩ := h
  exact fill_keeps_head h8 (range_match_pass_head h7)

/-! ### One-step preservation of `Exact` timestamps -/

lemma exact_preserved_initial_pattern (regexes : List (String → Bool))
    (shimcache : ShimcacheArtifact) :
    exact_preserved (initial_entities shimcache) (pattern_pass regexes shimcache) := by
  intro i t ty hb
  rcases i with _ | j
  · rw [initial_entities_zero] at hb
    simp only [Option.some_bind, shimcache_head_entity, Option.some_inj] at hb
    cases hb
    exact ⟨shimcache.last_update_ts, .ShimcacheLastUpdate,
      by rw [pattern_pass_zero]; rfl, Nat.le_refl _, fun _ => ⟨rfl, rfl⟩⟩
  · rw [initial_entities_succ] at hb
    rcases he : shimcache.entries[j]? with _ | entry
    · rw [he] at hb
      cases hb
    · rw [he] at hb
      simp [TimelineEntity.with_shimcache_entry] at hb

lemma exact_preserved_fill {es es2 : List TimelineEntity} (h : fill_step es = some es2) :
    exact_preserved es es2 := by
  intro i t ty hb
  exact ⟨t, ty, (fill_step_keeps_exact h).mpr hb, Nat.le_refl _, fun hty => ⟨rfl, hty⟩⟩

lemma exact_preserved_attach {es es2 : List TimelineEntity} (hc : attach_compatible es es2) :
    exact_preserved es es2 := by
  intro i t ty hb
  rcases hc i with h | ⟨e, e2, he, he2, hts, _, _⟩
  · exact ⟨t, ty, by rw [h]; exact hb, Nat.le_refl _, fun hty => ⟨rfl, hty⟩⟩
  · rw [he, Option.some_bind] at hb
    refine ⟨t, ty, ?_, Nat.le_refl _, fun hty => ⟨rfl, hty⟩⟩
    rw [he2, Option.some_bind, hts]
    exact hb

lemma exact_preserved_near {es : List TimelineEntity} (hp : exact_prop es) :
    exact_preserved es (es.map near_ts_step) := by
  intro i t ty hb
  rcases he : es[i]? with _ | e
  · rw [he] at hb
    cases hb
  · rw [he, Option.some_bind] at hb
    rw [List.getElem?_map, he, Option.map_some', Option.some_bind]
    rcases hp i e he t ty hb with ⟨hty, hsn⟩ | hty
    · rw [near_ts_step_no_entry hsn]
      subst hty
      exact ⟨t, .ShimcacheLastUpdate, hb, Nat.le_refl _, fun _ => ⟨rfl, rfl⟩⟩
    · subst hty
      rcases near_ts_step_cases e with hcc | ⟨afe, ha, hcc⟩
      · rw [hcc]
        exact ⟨t, .PatternMatch, hb, Nat.le_refl _, fun hty2 => by cases hty2⟩
      · rw [hcc]
        exact ⟨afe.key_last_modified_ts, .NearTSMatch, rfl, by decide,
          fun hty2 => by cases hty2⟩

lemma exact_preserved_range (es : List TimelineEntity) :
    exact_preserved es (es.map range_match_step) := by
  intro i t ty hb
  rcases he : es[i]? with _ | e
  · rw [he] at hb
    cases hb
  · rw [he, Option.some_bind] at hb
    rw [List.getElem?_map, he, Option.map_some', Option.some_bind]
    rw [range_match_step_not_range fun f t2 hc => by rw [hb] at hc; cases hc]
    exact ⟨t, ty, hb, Nat.le_refl _, fun hty => ⟨rfl, hty⟩⟩

lemma second_fill_requires {regexes : List (String → Bool)} {shimcache : ShimcacheArtifact}
    {am : AmcacheArtifact} {es : List TimelineEntity}
    (h : second_fill regexes shimcache am = some es) :
    amcache_file_requires_file_record es := by
  unfold second_fill at h
  rw [Option.bind_eq_some] at h
  obtain ⟨es5, h5, h6⟩ := h
  unfold near_pass at h5
  rw [Option.map_eq_some'] at h5
  obtain ⟨es4, h4, rfl⟩ := h5
  unfold attach_pass at h4
  rw [Option.map_eq_some'] at h4
  obtain ⟨es3, h3, rfl⟩ := h4
  have hn3 : no_amcache_file es3 := by
    unfold first_fill at h3
    exact no_amcache_file_fill h3 (no_amcache_file_pattern_pass regexes shimcache)
  have hr4 := amcache_file_requires_of_attach hn3
    (attach_compatible_trans (foldl_attach_file_compatible am.file_entries es3)
      (foldl_attach_program_compatible am.program_entries
        (am.file_entries.foldl (fun es2 fe => attach_file_entry fe es2) es3)))
  exact amcache_file_requires_fill h6 (amcache_file_requires_map_near hr4)

/-! ### The claims -/

/-- Claim C1: Range Filler correctness.  Given the entity vector and the ascending list
of anchor indices (indices whose timestamp is `Exact`), the filler assigns
`RangeStart(ts(a₀))` to every index below `a₀` when `a₀ > 0`, assigns
`Range(from = ts(b), to = ts(a))` to every index strictly between each adjacent anchor
pair `(a, b)`, assigns `RangeEnd(ts(a_last))` to every index after the last anchor when
entities remain there (`a_last + 1 < N`, i.e. `a_last < N − 1`), and leaves entities at
anchor indices unchanged. -/
theorem claim_C1_range_filler (l : List Nat) (es : List TimelineEntity)
    (hne : l ≠ []) (hsorted : l.Pairwise (· < ·)) (hanchors : ∀ i ∈ l, is_anchor es i) :
    ∃ es2, set_timestamp_ranges l es = some es2 ∧
      (∀ a0 : Nat, l.head? = some a0 → 0 < a0 → ∀ i : Nat, i < a0 →
        (es2[i]?).bind TimelineEntity.timestamp = some (.RangeStart (ts_at es a0))) ∧
      (∀ i a b : Nat, pair_gap l i = some (a, b) →
        (es2[i]?).bind TimelineEntity.timestamp = some (.Range (ts_at es b) (ts_at es a))) ∧
      (∀ al : Nat, l.getLast? = some al → al + 1 < es.length → ∀ i : Nat, al < i →
        i < es.length →
        (es2[i]?).bind TimelineEntity.timestamp = some (.RangeEnd (ts_at es al))) ∧
      (∀ i ∈ l, es2[i]? = es[i]?) := by
  obtain ⟨es2, heq, hlen, hmem, hhead, hpairs, htail⟩ :=
    set_timestamp_ranges_spec l es hne hsorted hanchors
  refine ⟨es2, heq, ?_, ?_, ?_, hmem⟩
  · intro a0 hh h0 i hia
    have ha0mem : a0 ∈ l := List.mem_of_mem_head? (Option.mem_def.mpr hh)
    have hlt : i < es.length :=
      Nat.lt_trans hia (is_anchor_lt_length (hanchors a0 ha0mem))
    obtain ⟨e, he⟩ : ∃ e, es[i]? = some e := by
      rw [List.getElem?_eq_getElem hlt]
      exact ⟨_, rfl⟩
    rw [hhead a0 hh i hia, he]
    rfl
  · intro i a b hgap
    obtain ⟨ham, hbm, hai, hib⟩ := pair_gap_mem hgap
    have hlt : i < es.length := Nat.lt_trans hib (is_anchor_lt_length (hanchors b hbm))
    obtain ⟨e, he⟩ : ∃ e, es[i]? = some e := by
      rw [List.getElem?_eq_getElem hlt]
      exact ⟨_, rfl⟩
    rw [hpairs i a b hgap, he]
    rfl
  · intro al hla _ i hai hlt
    obtain ⟨e, he⟩ : ∃ e, es[i]? = some e := by
      rw [List.getElem?_eq_getElem hlt]
      exact ⟨_, rfl⟩
    rw [htail al hla i hai hlt, he]
    rfl

/-- Witness for C1: the filler run on a four-entity vector with anchors (`Exact`) at
indices 0 and 2 carrying timestamps 10 and 5. -/
theorem claim_C1_witness :
    ∃ es2, set_timestamp_ranges [0, 2]
        [⟨none, none, none, some (.Exact 10 .PatternMatch)⟩,
         ⟨none, none, none, none⟩,
         ⟨none, none, none, some (.Exact 5 .PatternMatch)⟩,
         ⟨none, none, none, none⟩] = some es2 ∧
      (∀ a0 : Nat, ([0, 2] : List Nat).head? = some a0 → 0 < a0 → ∀ i : Nat, i < a0 →
        (es2[i]?).bind TimelineEntity.timestamp =
          some (.RangeStart (ts_at
            [⟨none, none, none, some (.Exact 10 .PatternMatch)⟩,
             ⟨none, none, none, none⟩,
             ⟨none, none, none, some (.Exact 5 .PatternMatch)⟩,
             ⟨none, none, none, none⟩] a0))) ∧
      (∀ i a b : Nat, pair_gap [0, 2] i = some (a, b) →
        (es2[i]?).bind TimelineEntity.timestamp =
          some (.Range (ts_at
            [⟨none, none, none, some (.Exact 10 .PatternMatch)⟩,
             ⟨none, none, none, none⟩,
             ⟨none, none, none, some (.Exact 5 .PatternMatch)⟩,
             ⟨none, none, none, none⟩] b) (ts_at
            [⟨none, none, none, some (.Exact 10 .PatternMatch)⟩,
             ⟨none, none, none, none⟩,
             ⟨none, none, none, some (.Exact 5 .PatternMatch)⟩,
             ⟨none, none, none, none⟩] a))) ∧
      (∀ al : Nat, ([0, 2] : List Nat).getLast? = some al →
        al + 1 < ([⟨none, none, none, some (.Exact 10 .PatternMatch)⟩,
             ⟨none, none, none, none⟩,
             ⟨none, none, none, some (.Exact 5 .PatternMatch)⟩,
             ⟨none, none, none, none⟩] : List TimelineEntity).length → ∀ i : Nat, al < i →
        i < ([⟨none, none, none, some (.Exact 10 .PatternMatch)⟩,
             ⟨none, none, none, none⟩,
             ⟨none, none, none, some (.Exact 5 .PatternMatch)⟩,
             ⟨none, none, none, none⟩] : List TimelineEntity).length →
        (es2[i]?).bind TimelineEntity.timestamp =
          some (.RangeEnd (ts_at
            [⟨none, none, none, some (.Exact 10 .PatternMatch)⟩,
             ⟨none, none, none, none⟩,
             ⟨none, none, none, some (.Exact 5 .PatternMatch)⟩,
             ⟨none, none, none, none⟩] al))) ∧
      (∀ i ∈ ([0, 2] : List Nat),
        es2[i]? = ([⟨none, none, none, some (.Exact 10 .PatternMatch)⟩,
             ⟨none, none, none, none⟩,
             ⟨none, none, none, some (.Exact 5 .PatternMatch)⟩,
             ⟨none, none, none, none⟩] : List TimelineEntity)[i]?) := by
  apply claim_C1_range_filler
  · decide
  · decide
  · intro i hi
    rcases List.mem_cons.mp hi with rfl | hi2
    · exact ⟨_, 10, .PatternMatch, rfl, rfl⟩
    · rcases List.mem_cons.mp hi2 with rfl | hi3
      · exact ⟨_, 5, .PatternMatch, rfl, rfl⟩
      · cases hi3

/-- Claim C2: Pass C near-timestamp promotion.  For an entity with a shimcache record
whose `last_modified_ts` is present and an attached Amcache file entry: when the
absolute difference of the two timestamps is at most 60 000 ms, the entity's timestamp
becomes `Exact(amcache_ts, NearTSMatch)` (the spec calls this provenance
`NearTimestampMatch`) — the Amcache timestamp, not the shimcache one; when the
difference exceeds 60 000 ms the entity is left unchanged. -/
theorem claim_C2_near_timestamp (e : TimelineEntity) (sce : ShimcacheEntry) (afe : FileEntry)
    (sts : Timestamp) (h1 : e.shimcache_entry = some sce) (h2 : e.amcache_file = some afe)
    (h3 : sce.last_modified_ts = some sts) :
    MAX_TIME_DIFFERENCE = 60000 ∧
    (|sts - afe.key_last_modified_ts| ≤ 60000 →
      near_ts_step e =
        { e with timestamp := some (.Exact afe.key_last_modified_ts .NearTSMatch) }) ∧
    (60000 < |sts - afe.key_last_modified_ts| → near_ts_step e = e) := by
  have hm : MAX_TIME_DIFFERENCE = 60000 := by decide
  refine ⟨hm, ?_, ?_⟩
  · intro hle
    rw [near_ts_step_eq h1 h2]
    exact near_ts_apply_near h3 (by rw [hm]; exact Int.not_lt.mpr hle)
  · intro hgt
    rw [near_ts_step_eq h1 h2]
    exact near_ts_apply_far h3 (by rw [hm]; exact hgt)

/-- Witness for C2: a shimcache timestamp of 50 ms and an Amcache timestamp of 100 ms
differ by 50 ms ≤ 60 000 ms, so the entity is promoted to the Amcache timestamp. -/
theorem claim_C2_witness :
    near_ts_step ⟨some ⟨"p", 100⟩, none, some ⟨.File "p", some 50⟩, none⟩ =
      { (⟨some ⟨"p", 100⟩, none, some ⟨.File "p", some 50⟩, none⟩ : TimelineEntity) with
        timestamp := some (.Exact 100 .NearTSMatch) } :=
  (claim_C2_near_timestamp ⟨some ⟨"p", 100⟩, none, some ⟨.File "p", some 50⟩, none⟩
    ⟨.File "p", some 50⟩ ⟨"p", 100⟩ 50 rfl rfl rfl).2.1 (by decide)

/-- Claim C4: Pass A pattern anchoring.  For an entity holding a shimcache record, the
matchers are tested against the lowercased path of a `File` entry and against the name
of a `Program` entry; if any matcher succeeds and `last_modified_ts` is present the
entity gets `Exact(last_modified_ts, PatternMatch)`; with no `last_modified_ts` the
entity is unchanged even on a match, and with no matching matcher it is unchanged.
(The source breaks out of the matcher loop at the first success; since the assigned
value does not depend on which matcher fired, the observable outcome is as stated.) -/
theorem claim_C4_pattern_anchoring (regexes : List (String → Bool)) (e : TimelineEntity)
    (sce : ShimcacheEntry) (h : e.shimcache_entry = some sce) :
    (∀ ts, (∃ re ∈ regexes, pattern_matches_entry re sce.entry_type = true) →
      sce.last_modified_ts = some ts →
      pattern_match_entity regexes e =
        { e with timestamp := some (.Exact ts .PatternMatch) }) ∧
    (sce.last_modified_ts = none → pattern_match_entity regexes e = e) ∧
    ((∀ re ∈ regexes, ¬ pattern_matches_entry re sce.entry_type = true) →
      pattern_match_entity regexes e = e) ∧
    (∀ (re : String → Bool) (p : String),
      pattern_matches_entry re (.File p) = re (to_lowercase p)) ∧
    (∀ (re : String → Bool) (pn : String),
      pattern_matches_entry re (.Program pn) = re pn) := by
  refine ⟨?_, ?_, ?_, fun re p => rfl, fun re pn => rfl⟩
  · intro ts hex hts
    rw [pattern_match_entity_entry h]
    refine pattern_apply_match_ts ?_ hts
    rw [List.find?_isSome]
    exact hex
  · intro hnone
    rw [pattern_match_entity_entry h]
    exact pattern_apply_no_ts hnone
  · intro hall
    rw [pattern_match_entity_entry h]
    exact pattern_apply_no_match (List.find?_eq_none.mpr hall)

/-- Witness for C4: a matcher that matches the lowercased path `"c:\\evil.exe"`
anchors the entity at its shimcache `last_modified_ts` of 10. -/
theorem claim_C4_witness :
    pattern_match_entity [fun s => s == "c:\\evil.exe"]
        ⟨none, none, some ⟨.File "C:\\EVIL.exe", some 10⟩, none⟩ =
      { (⟨none, none, some ⟨.File "C:\\EVIL.exe", some 10⟩, none⟩ : TimelineEntity) with
        timestamp := some (.Exact 10 .PatternMatch) } :=
  (claim_C4_pattern_anchoring [fun s => s == "c:\\evil.exe"]
      ⟨none, none, some ⟨.File "C:\\EVIL.exe", some 10⟩, none⟩
      ⟨.File "C:\\EVIL.exe", some 10⟩ rfl).1 10
    ⟨fun s => s == "c:\\evil.exe", List.mem_cons_self _ _, by decide⟩ rfl

/-- Claim C8: case sensitivity of Pass-A matching.  For `File` entries the path is
lowercased before matching, so the outcome is invariant under the letter case of the
path (two paths with equal lowercasings give equal outcomes); for `Program` entries
the name is passed to the matcher as-is, and there is a matcher whose outcome
distinguishes two names differing only in case. -/
theorem claim_C8_case_sensitivity :
    (∀ (re : String → Bool) (p1 p2 : String), to_lowercase p1 = to_lowercase p2 →
      pattern_matches_entry re (.File p1) = pattern_matches_entry re (.File p2)) ∧
    (∃ (re : String → Bool) (n1 n2 : String), to_lowercase n1 = to_lowercase n2 ∧
      pattern_matches_entry re (.Program n1) ≠ pattern_matches_entry re (.Program n2)) := by
  constructor
  · intro re p1 p2 h
    show re (to_lowercase p1) = re (to_lowercase p2)
    rw [h]
  · exact ⟨fun s => s == "A", "A", "a", by decide, by decide⟩

/-- Witness for C8: the pattern `"evil"`-matcher gives the same result on
`"EVIL.exe"` and `"evil.EXE"`, whose lowercasings agree. -/
theorem claim_C8_witness :
    pattern_matches_entry (fun s => s == "evil.exe") (.File "EVIL.exe") =
      pattern_matches_entry (fun s => s == "evil.exe") (.File "evil.EXE") :=
  claim_C8_case_sensitivity.1 (fun s => s == "evil.exe") "EVIL.exe" "evil.EXE" (by decide)

/-- Claim C9 counterexample: on anchors at indices 0 and 2 whose timestamps increase
with the index (0 then 5), the filler computes the degenerate `Range(from = 5, to = 0)`
with `from ≥ to` and writes it as-is; but, contrary to the claim, no warning diagnostic
is emitted — the body of `set_timestamp_ranges` contains no diagnostic call at all, so
the list of warnings it emits (modelled by `set_timestamp_ranges_warnings`) is empty on
this input. -/
theorem claim_C9_counterexample :
    set_timestamp_ranges [0, 2]
        [⟨none, none, none, some (.Exact 0 .PatternMatch)⟩,
         ⟨none, none, none, none⟩,
         ⟨none, none, none, some (.Exact 5 .PatternMatch)⟩] =
      some [⟨none, none, none, some (.Exact 0 .PatternMatch)⟩,
         ⟨none, none, none, some (.Range 5 0)⟩,
         ⟨none, none, none, some (.Exact 5 .PatternMatch)⟩] ∧
    (5 : Timestamp) ≥ 0 ∧
    set_timestamp_ranges_warnings [0, 2]
        [⟨none, none, none, some (.Exact 0 .PatternMatch)⟩,
         ⟨none, none, none, none⟩,
         ⟨none, none, none, some (.Exact 5 .PatternMatch)⟩] = [] :=
  ⟨by decide, by decide, rfl⟩

/-- Claim C9 as amended: when the filler computes a degenerate interval with
`from ≥ to`, the `Range(from, to)` value is still written to the entity exactly as
computed (never swapped, clamped or corrected) and the entity stays present in the
output with its raw computed fields; the run is not fatal — but no warning diagnostic
is emitted, because `set_timestamp_ranges` emits no diagnostics at all. -/
theorem claim_C9_degenerate_amended (l : List Nat) (es : List TimelineEntity)
    (hne : l ≠ []) (hsorted : l.Pairwise (· < ·)) (hanchors : ∀ i ∈ l, is_anchor es i)
    (i a b : Nat) (hgap : pair_gap l i = some (a, b)) (_hdeg : ts_at es b ≥ ts_at es a) :
    ∃ es2, set_timestamp_ranges l es = some es2 ∧
      (es2[i]?).bind TimelineEntity.timestamp = some (.Range (ts_at es b) (ts_at es a)) ∧
      set_timestamp_ranges_warnings l es = [] := by
  obtain ⟨es2, heq, _, _, _, hpairs, _⟩ :=
    set_timestamp_ranges_spec l es hne hsorted hanchors
  refine ⟨es2, heq, ?_, rfl⟩
  obtain ⟨ham, hbm, hai, hib⟩ := pair_gap_mem hgap
  have hlt : i < es.length := Nat.lt_trans hib (is_anchor_lt_length (hanchors b hbm))
  obtain ⟨e, he⟩ : ∃ e, es[i]? = some e := by
    rw [List.getElem?_eq_getElem hlt]
    exact ⟨_, rfl⟩
  rw [hpairs i a b hgap, he]
  rfl

/-- Witness for the amended C9: the degenerate pair of anchors 0 < 2 with timestamps
0 and 5 yields `Range(5, 0)` at index 1 and an empty warning list. -/
theorem claim_C9_witness :
    ∃ es2, set_timestamp_ranges [0, 2]
        [⟨none, none, none, some (.Exact 0 .PatternMatch)⟩,
         ⟨none, none, none, none⟩,
         ⟨none, none, none, some (.Exact 5 .PatternMatch)⟩] = some es2 ∧
      (es2[1]?).bind TimelineEntity.timestamp =
        some (.Range (ts_at [⟨none, none, none, some (.Exact 0 .PatternMatch)⟩,
         ⟨none, none, none, none⟩,
         ⟨none, none, none, some (.Exact 5 .PatternMatch)⟩] 2)
          (ts_at [⟨none, none, none, some (.Exact 0 .PatternMatch)⟩,
         ⟨none, none, none, none⟩,
         ⟨none, none, none, some (.Exact 5 .PatternMatch)⟩] 0)) ∧
      set_timestamp_ranges_warnings [0, 2]
        [⟨none, none, none, some (.Exact 0 .PatternMatch)⟩,
         ⟨none, none, none, none⟩,
         ⟨none, none, none, some (.Exact 5 .PatternMatch)⟩] = [] := by
  apply claim_C9_degenerate_amended
  · decide
  · decide
  · intro i hi
    rcases List.mem_cons.mp hi with rfl | hi2
    · exact ⟨_, 0, .PatternMatch, rfl, rfl⟩
    · rcases List.mem_cons.mp hi2 with rfl | hi3
      · exact ⟨_, 5, .PatternMatch, rfl, rfl⟩
      · cases hi3
  · decide
  · decide

/-- Claim C6: head anchor.  The synthetic head entity carries no shimcache record and
the timestamp `Exact(last_update_ts, ShimcacheLastUpdate)`; the vector returned by the
analysis has exactly this entity at index 0, and so does every intermediate pipeline
state (no pass and no Range-Filler run modifies it). -/
theorem claim_C6_head_anchor (regexes : List (String → Bool)) (shimcache : ShimcacheArtifact)
    (amcache : Option AmcacheArtifact) :
    (shimcache_head_entity shimcache).shimcache_entry = none ∧
    (shimcache_head_entity shimcache).timestamp =
      some (.Exact shimcache.last_update_ts .ShimcacheLastUpdate) ∧
    (∀ es, amcache_shimcache_timeline regexes shimcache amcache = some es →
      es[0]? = some (shimcache_head_entity shimcache)) ∧
    (∀ (n : Nat) es, pipeline_stage regexes shimcache amcache n = some es →
      es[0]? = some (shimcache_head_entity shimcache)) := by
  refine ⟨rfl, rfl, ?_, ?_⟩
  · intro es h
    unfold amcache_shimcache_timeline at h
    rcases amcache with _ | am
    · exact first_fill_head h
    · exact third_fill_head h
  · intro n es h
    rcases n with _ | _ | _ | _ | _ | _ | _ | _ | n
    · rw [pipeline_stage] at h
      obtain rfl := Option.some_inj.mp h
      exact initial_entities_zero shimcache
    · rw [pipeline_stage] at h
      obtain rfl := Option.some_inj.mp h
      exact pattern_pass_zero regexes shimcache
    · rw [pipeline_stage] at h
      exact first_fill_head h
    · rw [pipeline_stage] at h
      rcases amcache with _ | am
      · cases h
      · rw [Option.some_bind] at h
        exact attach_pass_head h
    · rw [pipeline_stage] at h
      rcases amcache with _ | am
      · cases h
      · rw [Option.some_bind] at h
        exact near_pass_head h
    · rw [pipeline_stage] at h
      rcases amcache with _ | am
      · cases h
      · rw [Option.some_bind] at h
        exact second_fill_head h
    · rw [pipeline_stage] at h
      rcases amcache with _ | am
      · cases h
      · rw [Option.some_bind] at h
        exact range_match_pass_head h
    · rw [pipeline_stage] at h
      rcases amcache with _ | am
      · cases h
      · rw [Option.some_bind] at h
        exact third_fill_head h
    · rw [pipeline_stage] at h
      cases h

/-- Witness for C6: a concrete two-entry run returns the synthetic head at index 0. -/
theorem claim_C6_witness :
    ([⟨none, none, none, some (.Exact 0 .ShimcacheLastUpdate)⟩,
      ⟨none, none, some ⟨.File "a", some 0⟩, some (.Exact 0 .PatternMatch)⟩,
      ⟨none, none, some ⟨.File "b", some 5⟩, some (.Exact 5 .PatternMatch)⟩] :
        List TimelineEntity)[0]? =
      some (shimcache_head_entity
        { last_update_ts := 0, entries := [⟨.File "a", some 0⟩, ⟨.File "b", some 5⟩] }) :=
  (claim_C6_head_anchor [fun _ => true]
      { last_update_ts := 0, entries := [⟨.File "a", some 0⟩, ⟨.File "b", some 5⟩] }
      none).2.2.1 _ (by decide)

/-- Claim C10 (implicit): when the analysis returns successfully, every entity in the
returned vector carries a `Some(..)` timestamp — the head is an `Exact` anchor and
every Range-Filler run assigns a timestamp to every non-anchor index, so no
`timestamp` field remains `None`. -/
theorem claim_C10_all_timestamped (regexes : List (String → Bool))
    (shimcache : ShimcacheArtifact) (amcache : Option AmcacheArtifact)
    (es : List TimelineEntity)
    (h : amcache_shimcache_timeline regexes shimcache amcache = some es) :
    ∀ e ∈ es, (e.timestamp).isSome := by
  unfold amcache_shimcache_timeline at h
  rcases amcache with _ | am
  · unfold first_fill at h
    exact fill_step_covers h
  · unfold third_fill at h
    rw [Option.bind_eq_some] at h
    obtain ⟨es7, _, h8⟩ := h
    exact fill_step_covers h8

/-- Witness for C10: the second entity of a concrete run's output has a timestamp. -/
theorem claim_C10_witness :
    (⟨none, none, some ⟨.File "a", some 0⟩, some (.Exact 0 .PatternMatch)⟩ :
      TimelineEntity).timestamp.isSome :=
  claim_C10_all_timestamped [fun _ => true]
    { last_update_ts := 0, entries := [⟨.File "a", some 0⟩, ⟨.File "b", some 5⟩] }
    none
    [⟨none, none, none, some (.Exact 0 .ShimcacheLastUpdate)⟩,
     ⟨none, none, some ⟨.File "a", some 0⟩, some (.Exact 0 .PatternMatch)⟩,
     ⟨none, none, some ⟨.File "b", some 5⟩, some (.Exact 5 .PatternMatch)⟩]
    (by decide) _ (by decide)

/-- Claim C3: Pass D (in-range Amcache promotion).  In any run, for every entity of
the state after the second Range-Filler run whose timestamp is `Range(f, t)` and whose
attached Amcache file entry satisfies `f < ts < t` strictly, Pass D assigns
`Exact(ts, AmcacheRangeMatch)`; an entity whose Amcache timestamp falls outside or on
the boundary of its range, or whose timestamp is not a `Range` at all (`Exact`,
`RangeStart`, `RangeEnd` or absent), is left unchanged.  (Within the pipeline an
attached Amcache file entry implies a shimcache `File` record, so the source's extra
`EntryType::File` test is automatically satisfied; this is proved via
`second_fill_requires`.) -/
theorem claim_C3_range_promotion (regexes : List (String → Bool))
    (shimcache : ShimcacheArtifact) (am : AmcacheArtifact) :
    (∀ es (i : Nat) e afe (f t : Timestamp), second_fill regexes shimcache am = some es →
      es[i]? = some e → e.timestamp = some (.Range f t) → e.amcache_file = some afe →
      f < afe.key_last_modified_ts → afe.key_last_modified_ts < t →
      ∃ es6, range_match_pass regexes shimcache am = some es6 ∧
        (es6[i]?).bind TimelineEntity.timestamp =
          some (.Exact afe.key_last_modified_ts .AmcacheRangeMatch)) ∧
    (∀ (e : TimelineEntity) afe (f t : Timestamp), e.timestamp = some (.Range f t) →
      e.amcache_file = some afe →
      ¬ (f < afe.key_last_modified_ts ∧ afe.key_last_modified_ts < t) →
      range_match_step e = e) ∧
    (∀ e : TimelineEntity, (∀ f t : Timestamp, e.timestamp ≠ some (.Range f t)) →
      range_match_step e = e) := by
  refine ⟨?_, ?_, ?_⟩
  · intro es i e afe f t h5 he ht ha h1 h2
    have hreq := second_fill_requires h5
    have hne : e.amcache_file ≠ none := by
      rw [ha]
      exact fun hc => by cases hc
    obtain ⟨sce, path, hsce, hp⟩ := hreq i e he hne
    refine ⟨es.map range_match_step, ?_, ?_⟩
    · unfold range_match_pass
      rw [h5, Option.map_some']
    · rw [List.getElem?_map, he, Option.map_some', Option.some_bind,
        range_match_step_eq hsce ha, range_match_apply_promote hp ht h1 h2]
  · intro e afe f t ht ha hout
    exact range_match_step_out ht ha hout
  · intro e h
    exact range_match_step_not_range h

/-- Witness for C3: a run in which the entity at index 2 sits in `Range(100000,
500000)` with an attached Amcache entry at 300000 and is promoted by Pass D. -/
theorem claim_C3_witness :
    ∃ es6, range_match_pass [fun s => s == "c:\\a" || s == "c:\\c"]
        { last_update_ts := 600000
          entries := [⟨.File "C:\\a", some 500000⟩, ⟨.File "C:\\b", none⟩,
            ⟨.File "C:\\c", some 100000⟩] }
        { file_entries := [⟨"C:\\b", 300000⟩], program_entries := [] } = some es6 ∧
      (es6[2]?).bind TimelineEntity.timestamp = some (.Exact 300000 .AmcacheRangeMatch) :=
  (claim_C3_range_promotion [fun s => s == "c:\\a" || s == "c:\\c"]
      { last_update_ts := 600000
        entries := [⟨.File "C:\\a", some 500000⟩, ⟨.File "C:\\b", none⟩,
          ⟨.File "C:\\c", some 100000⟩] }
      { file_entries := [⟨"C:\\b", 300000⟩], program_entries := [] }).1
    [⟨none, none, none, some (.Exact 600000 .ShimcacheLastUpdate)⟩,
     ⟨none, none, some ⟨.File "C:\\a", some 500000⟩, some (.Exact 500000 .PatternMatch)⟩,
     ⟨some ⟨"C:\\b", 300000⟩, none, some ⟨.File "C:\\b", none⟩,
       some (.Range 100000 500000)⟩,
     ⟨none, none, some ⟨.File "C:\\c", some 100000⟩, some (.Exact 100000 .PatternMatch)⟩]
    2
    ⟨some ⟨"C:\\b", 300000⟩, none, some ⟨.File "C:\\b", none⟩, some (.Range 100000 500000)⟩
    ⟨"C:\\b", 300000⟩ 100000 500000 (by decide) (by decide) rfl rfl (by decide) (by decide)

/-- Claim C5: provenance preservation.  Along every consecutive pair of pipeline
stages, an entity whose timestamp is `Exact` keeps an `Exact` timestamp (it is never
demoted to `Range`, `RangeStart` or `RangeEnd`), its provenance never weakens in the
order `PatternMatch < NearTSMatch < AmcacheRangeMatch`, and an
`Exact(·, ShimcacheLastUpdate)` timestamp is never overwritten at all. -/
theorem claim_C5_provenance (regexes : List (String → Bool)) (shimcache : ShimcacheArtifact)
    (amcache : Option AmcacheArtifact) (n : Nat) (es es2 : List TimelineEntity)
    (h1 : pipeline_stage regexes shimcache amcache n = some es)
    (h2 : pipeline_stage regexes shimcache amcache (n + 1) = some es2) :
    exact_preserved es es2 := by
  rcases n with _ | _ | _ | _ | _ | _ | _ | _ | n
  · -- initial → pattern pass
    rw [pipeline_stage] at h1
    have h2b : pipeline_stage regexes shimcache amcache 1 = some es2 := h2
    rw [pipeline_stage] at h2b
    obtain rfl := Option.some_inj.mp h1
    obtain rfl := Option.some_inj.mp h2b
    exact exact_preserved_initial_pattern regexes shimcache
  · -- pattern pass → first fill
    rw [pipeline_stage] at h1
    have h2b : pipeline_stage regexes shimcache amcache 2 = some es2 := h2
    rw [pipeline_stage] at h2b
    obtain rfl := Option.some_inj.mp h1
    unfold first_fill at h2b
    exact exact_preserved_fill h2b
  · -- first fill → attach pass
    rw [pipeline_stage] at h1
    have h2b : pipeline_stage regexes shimcache amcache 3 = some es2 := h2
    rw [pipeline_stage] at h2b
    rcases amcache with _ | am
    · cases h2b
    · rw [Option.some_bind] at h2b
      unfold attach_pass at h2b
      rw [Option.map_eq_some'] at h2b
      obtain ⟨es3, h3, rfl⟩ := h2b
      rw [h1] at h3
      obtain rfl := Option.some_inj.mp h3
      exact exact_preserved_attach
        (attach_compatible_trans (foldl_attach_file_compatible _ _)
          (foldl_attach_program_compatible _ _))
  · -- attach pass → near pass
    rw [pipeline_stage] at h1
    have h2b : pipeline_stage regexes shimcache amcache 4 = some es2 := h2
    rw [pipeline_stage] at h2b
    rcases amcache with _ | am
    · cases h1
    · rw [Option.some_bind] at h1 h2b
      unfold near_pass at h2b
      rw [Option.map_eq_some'] at h2b
      obtain ⟨es4, h4, rfl⟩ := h2b
      rw [h1] at h4
      obtain rfl := Option.some_inj.mp h4
      unfold attach_pass at h1
      rw [Option.map_eq_some'] at h1
      obtain ⟨es3, h3, rfl⟩ := h1
      have hp3 : exact_prop es3 := by
        unfold first_fill at h3
        exact exact_prop_fill h3 (exact_prop_pattern_pass regexes shimcache)
      exact exact_preserved_near (exact_prop_attach
        (attach_compatible_trans (foldl_attach_file_compatible _ _)
          (foldl_attach_program_compatible _ _)) hp3)
  · -- near pass → second fill
    rw [pipeline_stage] at h1
    have h2b : pipeline_stage regexes shimcache amcache 5 = some es2 := h2
    rw [pipeline_stage] at h2b
    rcases amcache with _ | am
    · cases h1
    · rw [Option.some_bind] at h1 h2b
      unfold second_fill at h2b
      rw [Option.bind_eq_some] at h2b
      obtain ⟨es5, h5, h6⟩ := h2b
      rw [h1] at h5
      obtain rfl := Option.some_inj.mp h5
      exact exact_preserved_fill h6
  · -- second fill → range-match pass
    rw [pipeline_stage] at h1
    have h2b : pipeline_stage regexes shimcache amcache 6 = some es2 := h2
    rw [pipeline_stage] at h2b
    rcases amcache with _ | am
    · cases h1
    · rw [Option.some_bind] at h1 h2b
      unfold range_match_pass at h2b
      rw [Option.map_eq_some'] at h2b
      obtain ⟨es6, h6, rfl⟩ := h2b
      rw [h1] at h6
      obtain rfl := Option.some_inj.mp h6
      exact exact_preserved_range _
  · -- range-match pass → third fill
    rw [pipeline_stage] at h1
    have h2b : pipeline_stage regexes shimcache amcache 7 = some es2 := h2
    rw [pipeline_stage] at h2b
    rcases amcache with _ | am
    · cases h1
    · rw [Option.some_bind] at h1 h2b
      unfold third_fill at h2b
      rw [Option.bind_eq_some] at h2b
      obtain ⟨es7, h7, h8⟩ := h2b
      rw [h1] at h7
      obtain rfl := Option.some_inj.mp h7
      exact exact_preserved_fill h8
  · -- stage 8 does not exist
    have h2b : pipeline_stage regexes shimcache amcache 8 = some es2 := h2
    rw [pipeline_stage] at h2b
    cases h2b
  · -- stages ≥ 8 do not exist
    rw [pipeline_stage] at h1
    cases h1

/-- Witness for C5: the transition from the pattern pass to the first filler run on a
one-entry shimcache. -/
theorem claim_C5_witness :
    exact_preserved
      (pattern_pass [fun _ => true]
        { last_update_ts := 9, entries := [⟨.File "a", some 7⟩] })
      [⟨none, none, none, some (.Exact 9 .ShimcacheLastUpdate)⟩,
       ⟨none, none, some ⟨.File "a", some 7⟩, some (.Exact 7 .PatternMatch)⟩] :=
  claim_C5_provenance [fun _ => true]
    { last_update_ts := 9, entries := [⟨.File "a", some 7⟩] } none 1 _ _ rfl (by decide)

/-- Claim C7 counterexample: a run (no Amcache, one match-everything pattern) on a
shimcache whose `last_modified_ts` values increase with the index produces the final
`Exact` timestamps 0, 0, 5 at indices 0 < 1 < 2: the entities at indices 1 < 2 carry
`Exact` timestamps 0 and 5 with ¬(0 ≥ 5), so the Exact subsequence is not
non-increasing and the claim, which quantifies over all runs, fails. -/
theorem claim_C7_counterexample :
    amcache_shimcache_timeline [fun _ => true]
        { last_update_ts := 0, entries := [⟨.File "a", some 0⟩, ⟨.File "b", some 5⟩] }
        none =
      some [⟨none, none, none, some (.Exact 0 .ShimcacheLastUpdate)⟩,
        ⟨none, none, some ⟨.File "a", some 0⟩, some (.Exact 0 .PatternMatch)⟩,
        ⟨none, none, some ⟨.File "b", some 5⟩, some (.Exact 5 .PatternMatch)⟩] ∧
    ¬ ((5 : Timestamp) ≤ (0 : Timestamp)) :=
  ⟨by decide, by decide⟩

/-- Claim C7 as amended: for runs without an Amcache artifact, if every present
`last_modified_ts` is at most `last_update_ts` and the present `last_modified_ts`
values are non-increasing along the entry vector, then in the returned vector any two
entities at indices `i < j` with `Exact` timestamps `ti` and `tj` satisfy `tj ≤ ti`.
(The unamended claim fails: with out-of-order inputs — and, with an Amcache, even on
ordered inputs, since Pass C may move an anchor by up to 60 s and Pass D may promote
two entities inside one gap in either order — the `Exact` sequence need not be
non-increasing.) -/
theorem claim_C7_monotone_amended (regexes : List (String → Bool))
    (shimcache : ShimcacheArtifact) (es : List TimelineEntity)
    (hrun : amcache_shimcache_timeline regexes shimcache none = some es)
    (hhead : ∀ entry ∈ shimcache.entries, ∀ t : Timestamp,
      entry.last_modified_ts = some t → t ≤ shimcache.last_update_ts)
    (hmono : shimcache.entries.Pairwise (fun e1 e2 => ∀ t1 t2 : Timestamp,
      e1.last_modified_ts = some t1 → e2.last_modified_ts = some t2 → t2 ≤ t1))
    (i j : Nat) (ti tj : Timestamp) (tyi tyj : TimestampType) (hij : i < j)
    (hi : (es[i]?).bind TimelineEntity.timestamp = some (.Exact ti tyi))
    (hj : (es[j]?).bind TimelineEntity.timestamp = some (.Exact tj tyj)) :
    tj ≤ ti := by
  unfold amcache_shimcache_timeline first_fill at hrun
  have hi1 := (fill_step_keeps_exact hrun).mp hi
  have hj1 := (fill_step_keeps_exact hrun).mp hj
  rcases pattern_pass_exact_src hi1 with ⟨hieq, hit, _⟩ | ⟨j1, e1, hieq, he1, hlm1, _⟩
  · rcases pattern_pass_exact_src hj1 with ⟨hjeq, _, _⟩ | ⟨j2, e2, hjeq, he2, hlm2, _⟩
    · omega
    · rw [hit]
      exact hhead e2 (List.getElem?_mem he2) tj hlm2
  · rcases pattern_pass_exact_src hj1 with ⟨hjeq, _, _⟩ | ⟨j2, e2, hjeq, he2, hlm2, _⟩
    · omega
    · have hj1j2 : j1 < j2 := by omega
      have h1len : j1 < shimcache.entries.length := (List.getElem?_eq_some.mp he1).1
      have h2len : j2 < shimcache.entries.length := (List.getElem?_eq_some.mp he2).1
      have hg1 : shimcache.entries.get ⟨j1, h1len⟩ = e1 := by
        have hx := List.getElem?_eq_getElem h1len
        rw [he1] at hx
        rw [List.get_eq_getElem]
        exact (Option.some_inj.mp hx).symm
      have hg2 : shimcache.entries.get ⟨j2, h2len⟩ = e2 := by
        have hx := List.getElem?_eq_getElem h2len
        rw [he2] at hx
        rw [List.get_eq_getElem]
        exact (Option.some_inj.mp hx).symm
      have hR := List.pairwise_iff_get.mp hmono ⟨j1, h1len⟩ ⟨j2, h2len⟩
        (Fin.mk_lt_mk.mpr hj1j2)
      rw [hg1, hg2] at hR
      exact hR ti tj hlm1 hlm2

/-- Witness for the amended C7: a run on a monotone shimcache (head 100, entries 50
then 40) is non-increasing; the amended theorem applied at indices 1 < 2 yields
`40 ≤ 50`. -/
theorem claim_C7_witness :
    amcache_shimcache_timeline [fun _ => true]
        { last_update_ts := 100, entries := [⟨.File "a", some 50⟩, ⟨.File "b", some 40⟩] }
        none =
      some [⟨none, none, none, some (.Exact 100 .ShimcacheLastUpdate)⟩,
        ⟨none, none, some ⟨.File "a", some 50⟩, some (.Exact 50 .PatternMatch)⟩,
        ⟨none, none, some ⟨.File "b", some 40⟩, some (.Exact 40 .PatternMatch)⟩] ∧
    (40 : Timestamp) ≤ 50 := by
  refine ⟨by decide, ?_⟩
  refine claim_C7_monotone_amended [fun _ => true]
    { last_update_ts := 100, entries := [⟨.File "a", some 50⟩, ⟨.File "b", some 40⟩] }
    [⟨none, none, none, some (.Exact 100 .ShimcacheLastUpdate)⟩,
     ⟨none, none, some ⟨.File "a", some 50⟩, some (.Exact 50 .PatternMatch)⟩,
     ⟨none, none, some ⟨.File "b", some 40⟩, some (.Exact 40 .PatternMatch)⟩]
    (by decide) ?_ ?_ 1 2 50 40 .PatternMatch .PatternMatch (by decide) (by decide)
    (by decide)
  · intro entry hmem t ht
    rcases List.mem_cons.mp hmem with rfl | hmem2
    · have ht50 : some (50 : Timestamp) = some t := ht
      obtain rfl := Option.some_inj.mp ht50
      decide
    · rcases List.mem_cons.mp hmem2 with rfl | hmem3
      · have ht40 : some (40 : Timestamp) = some t := ht
        obtain rfl := Option.some_inj.mp ht40
        decide
      · cases hmem3
  · refine List.Pairwise.cons ?_ (List.pairwise_singleton _ _)
    intro e2 he2 t1 t2 ht1 ht2
    rcases List.mem_singleton.mp he2 with rfl
    have ht1b : some (50 : Timestamp) = some t1 := ht1
    have ht2b : some (40 : Timestamp) = some t2 := ht2
    obtain rfl := Option.some_inj.mp ht1b
    obtain rfl := Option.some_inj.mp ht2b
    decide

end Chainsaw
